import Mathlib

/-! The TLS transport of sngrep (`src/capture_gnutls.c`): a shallow embedding.

Bytes are natural numbers below 256.  A C pointer into a wire buffer or into a
structure is a function from offsets to bytes (`Mem`): a read past the nominal
length of the object is then a read of whatever the memory holds there, and a
statement "no byte outside the object is used" is expressed by comparing two
memories that agree on the object.  An array that the code *writes* is a list
whose length is the declared size of the array; a write that does not fit the
array is undefined behaviour in C and is `none` in the embedding.
-/

namespace Sngrep

/-! ## Memory primitives -/

/-- Memory as seen through a C pointer: the byte found at each offset. -/
abbrev Mem := Nat → Nat

/-- Pointer arithmetic `p + k`. -/
def Mem.shift (p : Mem) (k : Nat) : Mem := fun i => p (k + i)

/-- The `n` bytes read at `p + off`. -/
def Mem.bytes (p : Mem) (off n : Nat) : List Nat := (List.range n).map (fun i => p (off + i))

/-- The memory that holds the list `l` at offset 0 (and zero bytes after it). -/
def Mem.ofList (l : List Nat) : Mem := fun i => l.getD i 0

/-- C `memcpy(dst + off, src, n)` into the array `dst`: the first `n` bytes of `src` replace
`dst[off .. off+n)`.  Writing past the end of `dst`, or reading past the end of `src`, is
undefined behaviour: `none`. -/
def memcpy (dst : List Nat) (off : Nat) (src : List Nat) (n : Nat) : Option (List Nat) :=
  if off + n ≤ dst.length ∧ n ≤ src.length then
    some (dst.take off ++ src.take n ++ dst.drop (off + n))
  else none

/-! ## libgcrypt message digests -/

/-- A libgcrypt digest algorithm used in HMAC mode (`gcry_md_open` with `GCRY_MD_FLAG_HMAC`,
`gcry_md_setkey`, `gcry_md_write`..., `gcry_md_read`): `dlen` is `gcry_md_get_algo_dlen`
and `hmac key msg` is what `gcry_md_read` returns after the key `key` was set and the bytes
`msg` were written. -/
structure Digest where
  dlen : Nat
  hmac : List Nat → List Nat → List Nat
  hmac_len : ∀ k m, (hmac k m).length = dlen

/-! ## `P_hash` (lines 47-88) -/

/-- The `while (pending > 0)` loop of `P_hash`.  The state is the array `tmpseed` (declared
with `slen` bytes) and its used length `tmpslen`, the destination array `dest` with the
write offset `out`, `pending`, and `hlen` (`none` while it is uninitialised).  Every
iteration with a positive digest length lowers `pending`; the fuel is only exhausted by the
loop that never ends (digest length 0), which gives `none`. -/
def P_hash_loop (d : Digest) (secret seed : List Nat) :
    Nat → List Nat → Nat → List Nat → Nat → Nat → Option Nat → Option (List Nat × Option Nat)
  | 0, _, _, dest, _, pending, hlen => if pending > 0 then none else some (dest, hlen)
  | fuel + 1, tmpseed, tmpslen, dest, out, pending, hlen =>
    if pending > 0 then
      -- gcry_md_write(md, tmpseed, tmpslen); memcpy(tmpseed, gcry_md_read(md, algo), algolen);
      match memcpy tmpseed 0 (d.hmac secret (tmpseed.take tmpslen)) d.dlen with
      | none => none
      | some tmpseed1 =>
        -- gcry_md_write(md, tmpseed, tmpslen); gcry_md_write(md, seed, slen);
        -- memcpy(hmac, gcry_md_read(md, algo), algolen);   with   unsigned char hmac[48]
        match memcpy (List.replicate 48 0) 0 (d.hmac secret (tmpseed1.take d.dlen ++ seed))
            d.dlen with
        | none => none
        | some hmac =>
          let hlen1 := if d.dlen > pending then pending else d.dlen
          match memcpy dest out hmac hlen1 with
          | none => none
          | some dest1 =>
            P_hash_loop d secret seed fuel tmpseed1 d.dlen dest1 (out + hlen1)
              (pending - hlen1) (some hlen1)
    else some (dest, hlen)

/-- The function `P_hash(digest, dest, dlen, secret, sslen, seed, slen)`: `secret` and
`seed` are the bytes at the two pointers (`sslen` and `slen` of them), `dest` the
destination array.  Returns the array after the call and the returned `hlen`. -/
def P_hash (d : Digest) (dest : List Nat) (dlen : Nat) (secret seed : List Nat) :
    Option (List Nat × Option Nat) :=
  -- unsigned char tmpseed[slen]; memcpy(tmpseed, seed, slen); tmpslen = slen;
  P_hash_loop d secret seed dlen seed seed.length dest 0 dlen none

/-! ## `PRF` (lines 90-122) -/

/-- The final loop of `PRF`: `dest[i] = h_md5[i] ^ h_sha[i]` for `i < dlen`. -/
def xor_into (dest : List Nat) (dlen : Nat) (h_md5 h_sha : List Nat) : Option (List Nat) :=
  memcpy dest 0 (List.zipWith Nat.xor h_md5 h_sha) dlen

/-- The function `PRF(dest, dlen, pre_master_secret, plen, label, seed, slen)`.
Here `pre_master_secret` is the pointer the caller passes, `label` the bytes of the C
string before its terminator (`llen` is their number), `seed` the `slen` bytes at `seed`.
The locals `md5_secret` and `sha_secret` are filled by the source and never read; the two
`P_hash` calls receive `pre_master_secret` and `pre_master_secret + hplen`, both with
length `hplen`. -/
def PRF (md5 sha1 : Digest) (dest : List Nat) (dlen : Nat) (pre_master_secret : Mem)
    (plen : Nat) (label seed : List Nat) : Option (List Nat × Nat) :=
  let hplen := plen / 2 + plen % 2
  let fseed := label ++ seed
  match P_hash md5 (List.replicate dlen 0) dlen (pre_master_secret.bytes 0 hplen) fseed with
  | none => none
  | some (h_md5, _) =>
    match P_hash sha1 (List.replicate dlen 0) dlen (pre_master_secret.bytes hplen hplen)
        fseed with
    | none => none
    | some (h_sha, _) =>
      match xor_into dest dlen h_md5 h_sha with
      | none => none
      | some dest1 => some (dest1, dlen)

/-! ## Wire constants and structure sizes

The header `capture_gnutls.h` is not among the sources; what the code takes from it is
collected here. -/

/-- Modelled from the spec: `enum ContentType` of the missing header `capture_gnutls.h`;
the record types the spec names, with their TLS wire value. -/
def change_cipher_spec : Nat := 20
/-- Modelled from the spec: TLS record type `handshake` (missing header). -/
def handshake : Nat := 22
/-- Modelled from the spec: TLS record type `application_data` (missing header). -/
def application_data : Nat := 23

/-- Modelled from the spec: `enum HandshakeType` of the missing header, the handshake
messages the spec names with their TLS wire value. -/
def hello_request : Nat := 0
/-- Modelled from the spec: handshake type `client_hello` (missing header). -/
def client_hello : Nat := 1
/-- Modelled from the spec: handshake type `server_hello` (missing header). -/
def server_hello : Nat := 2
/-- Modelled from the spec: handshake type `certificate` (missing header). -/
def certificate : Nat := 11
/-- Modelled from the spec: handshake type `certificate_request` (missing header). -/
def certificate_request : Nat := 13
/-- Modelled from the spec: handshake type `server_hello_done` (missing header). -/
def server_hello_done : Nat := 14
/-- Modelled from the spec: handshake type `certificate_verify` (missing header). -/
def certificate_verify : Nat := 15
/-- Modelled from the spec: handshake type `client_key_exchange` (missing header). -/
def client_key_exchange : Nat := 16
/-- Modelled from the spec: handshake type `finished` (missing header). -/
def finished : Nat := 20

/-- Modelled from the spec: `sizeof(struct TLSPlaintext)`, the record header of a 1-byte
type, a 2-byte version and a 2-byte length (missing header). -/
def sizeof_TLSPlaintext : Nat := 5
/-- Modelled from the spec: `sizeof(struct Handshake)`, a 1-byte message type and a 3-byte
length (missing header). -/
def sizeof_Handshake : Nat := 4
/-- Modelled from the spec: `sizeof(struct Random)`, the 32-byte hello random (missing
header). -/
def sizeof_Random : Nat := 32
/-- Modelled from the spec: `sizeof(struct ServerHello)`, a 2-byte version, the 32-byte
random and the 1-byte session-id length (missing header). -/
def sizeof_ServerHello : Nat := 35
/-- Modelled from the spec: `sizeof(struct MasterSecret)`, 48 bytes (missing header). -/
def sizeof_MasterSecret : Nat := 48
/-- Modelled from the spec: `sizeof(struct PreMasterSecret)`, 48 bytes (missing header). -/
def sizeof_PreMasterSecret : Nat := 48

/-- Modelled from the spec: the macro `UINT16_INT` of the missing header, the big-endian
value of a 2-byte field. -/
def UINT16_INT (b0 b1 : Nat) : Nat := b0 * 256 + b1
/-- Modelled from the spec: the macro `UINT24_INT` of the missing header, the big-endian
value of a 3-byte field. -/
def UINT24_INT (b0 b1 b2 : Nat) : Nat := b0 * 65536 + b1 * 256 + b2

/-- The C string `"master secret"`. -/
def master_secret_label : List Nat := [109, 97, 115, 116, 101, 114, 32, 115, 101, 99, 114, 101, 116]
/-- The C string `"key expansion"`. -/
def key_expansion_label : List Nat :=
  [107, 101, 121, 32, 101, 120, 112, 97, 110, 115, 105, 111, 110]

/-- Where the fields of `struct tls_data` that the code names lie in the structure, and
`sizeof(struct tls_data)`.  The declaration is in the missing header; being a C structure,
its offsets and size are constants of the program, the same for every session. -/
structure TlsDataLayout where
  size : Nat
  client_write_key : Nat
  server_write_key : Nat
  client_write_IV : Nat
  server_write_IV : Nat
  deriving DecidableEq

/-- Modelled from the spec: `struct tls_data` of the missing header, the fields in the
order the spec lists them (client MAC key, server MAC key, client write key, server write
key, client IV, server IV) with 20-byte MAC keys, 16-byte IVs and key fields of 32 bytes,
the longest key of the two supported ciphers (a C array has one size). -/
def tls_data_layout : TlsDataLayout :=
  { size := 136, client_write_key := 40, server_write_key := 72, client_write_IV := 104,
    server_write_IV := 120 }

/-! ## libgcrypt ciphers -/

/-- What `gcry_cipher_map_name("AES")` returns. -/
def GCRY_CIPHER_AES : Nat := 7
/-- What `gcry_cipher_map_name("AES256")` returns. -/
def GCRY_CIPHER_AES256 : Nat := 9

/-- The function `gcry_cipher_get_algo_keylen` on the algorithms the code can select; 0 for an
identifier that names none of them. -/
def gcry_cipher_get_algo_keylen (algo : Nat) : Nat :=
  if algo = GCRY_CIPHER_AES then 16 else if algo = GCRY_CIPHER_AES256 then 32 else 0

/-- The function `gcry_cipher_get_algo_blklen` on the algorithms the code can select. -/
def gcry_cipher_get_algo_blklen (algo : Nat) : Nat :=
  if algo = GCRY_CIPHER_AES ∨ algo = GCRY_CIPHER_AES256 then 16 else 0

/-- The state of a libgcrypt cipher handle in CBC mode: the algorithm it was opened for,
the key and the chaining vector. -/
structure CipherCtx where
  algo : Nat
  key : List Nat
  iv : List Nat
  deriving DecidableEq

/-- The call `gcry_cipher_open(&h, algo, GCRY_CIPHER_MODE_CBC, 0)`: a handle, or `NULL` (`none`)
when `algo` names no cipher. -/
def gcry_cipher_open (algo : Nat) : Option CipherCtx :=
  if gcry_cipher_get_algo_keylen algo = 0 then none else some { algo := algo, key := [], iv := [] }

/-! ## The session -/

/-- The type `struct CipherSuite`. -/
structure CipherSuite where
  cs1 : Nat
  cs2 : Nat
  deriving DecidableEq

/-- The constant `TLS_RSA_WITH_AES_128_CBC_SHA`, lines 42-43. -/
def TLS_RSA_WITH_AES_128_CBC_SHA : CipherSuite := { cs1 := 0x00, cs2 := 0x2F }
/-- The constant `TLS_RSA_WITH_AES_256_CBC_SHA`, lines 44-45. -/
def TLS_RSA_WITH_AES_256_CBC_SHA : CipherSuite := { cs1 := 0x00, cs2 := 0x35 }

/-- The type `enum SSLConnectionState` (the states the code names). -/
inductive SSLConnectionState
  | TCP_STATE_SYN
  | TCP_STATE_SYN_ACK
  | TCP_STATE_ACK
  | TCP_STATE_ESTABLISHED
  | TCP_STATE_FIN
  | TCP_STATE_CLOSED
  deriving DecidableEq

/-- The type `struct SSLConnection`, the fields the code uses (the OpenSSL handles `ssl_ctx` and
`ssl` are created and freed but never read, and are left out; `next` is the position in
the list `connections`).  Byte arrays are lists; the two cipher handles are `none` while
they are `NULL`. -/
structure SSLConnection where
  state : SSLConnectionState
  direction : Int
  encrypted : Nat
  client_addr : Nat
  server_addr : Nat
  client_port : Nat
  server_port : Nat
  ciph : Nat
  server_private_key : List Nat
  client_random : List Nat
  server_random : List Nat
  cipher_suite : CipherSuite
  pre_master_secret : List Nat
  master_secret : List Nat
  key_material : List Nat
  client_cipher_ctx : Option CipherCtx
  server_cipher_ctx : Option CipherCtx
  deriving DecidableEq

/-- What the code receives from outside the file: the two digests `gcry_md_map_name`
resolves (`"MD5"`, 16 bytes, and `"SHA1"`, 20 bytes), CBC decryption on a handle (it
returns the handle with its chaining state advanced and the `inlen` output bytes), RSA
decryption with the private key (`none` when it fails), the layout of `struct tls_data`,
and what `tls_connection_create` meets when it runs: whether `SSL_CTX_new` and `SSL_new`
succeed and the content of the key file (`none` when `fopen` fails). -/
structure Env where
  md5 : Digest
  sha1 : Digest
  md5_dlen : md5.dlen = 16
  sha1_dlen : sha1.dlen = 20
  gcry_cipher_decrypt : CipherCtx → List Nat → CipherCtx × List Nat
  gcry_cipher_decrypt_len : ∀ c x, (gcry_cipher_decrypt c x).2.length = x.length
  gnutls_privkey_decrypt_data : List Nat → List Nat → Option (List Nat)
  tls_data : TlsDataLayout
  SSL_CTX_new_ok : Bool
  SSL_new_ok : Bool
  keyfile : Option (List Nat)

/-- The sizes of the byte arrays of a session: the two randoms, the two secrets and
`key_material` have the size of their C type. -/
def SSLConnection.wf (env : Env) (conn : SSLConnection) : Prop :=
  conn.client_random.length = sizeof_Random ∧ conn.server_random.length = sizeof_Random ∧
  conn.pre_master_secret.length = sizeof_PreMasterSecret ∧
  conn.master_secret.length = sizeof_MasterSecret ∧
  conn.key_material.length = env.tls_data.size

instance (env : Env) (conn : SSLConnection) : Decidable (conn.wf env) := by
  unfold SSLConnection.wf; infer_instance

/-- Modelled from the spec: `sng_malloc(sizeof(struct SSLConnection))` (`util.c` is not among
the sources): the block of a new session, zero-filled, which is state SYN and
`encrypted = false`. -/
def sng_malloc_SSLConnection (env : Env) : SSLConnection :=
  { state := .TCP_STATE_SYN, direction := 0, encrypted := 0, client_addr := 0, server_addr := 0,
    client_port := 0, server_port := 0, ciph := 0, server_private_key := [],
    client_random := List.replicate sizeof_Random 0,
    server_random := List.replicate sizeof_Random 0,
    cipher_suite := { cs1 := 0, cs2 := 0 },
    pre_master_secret := List.replicate sizeof_PreMasterSecret 0,
    master_secret := List.replicate sizeof_MasterSecret 0,
    key_material := List.replicate env.tls_data.size 0,
    client_cipher_ctx := none, server_cipher_ctx := none }

/-! ## The session registry (lines 124-252) -/

/-- The function `tls_connection_create`, on the list `connections`: the new session (`none` for a
`NULL` return) and the list after the call.  A failing step returns before the session is
linked. -/
def tls_connection_create (env : Env) (connections : List SSLConnection)
    (caddr cport saddr sport : Nat) : Option SSLConnection × List SSLConnection :=
  let conn := { sng_malloc_SSLConnection env with
    client_addr := caddr, server_addr := saddr, client_port := cport, server_port := sport }
  if ¬ env.SSL_CTX_new_ok then (none, connections)
  else if ¬ env.SSL_new_ok then (none, connections)
  else
    match env.keyfile with
    | none => (none, connections)
    | some keycontent =>
      let conn := { conn with server_private_key := keycontent }
      (some conn, conn :: connections)

/-- The call `tls_connection_destroy(conn)` for the session at position `i` of `connections`: it
is unlinked. -/
def tls_connection_destroy (connections : List SSLConnection) (i : Nat) : List SSLConnection :=
  connections.eraseIdx i

/-- The function `tls_connection_dir`. -/
def tls_connection_dir (conn : SSLConnection) (addr port : Nat) : Int :=
  if conn.client_addr = addr ∧ conn.client_port = port then 0
  else if conn.server_addr = addr ∧ conn.server_port = port then 1
  else -1

/-- The function `tls_connection_find`: the first session of the list for which `tls_connection_dir`
is not -1. -/
def tls_connection_find : List SSLConnection → Nat → Nat → Option SSLConnection
  | [], _, _ => none
  | conn :: next, addr, port =>
    if tls_connection_dir conn addr port ≠ -1 then some conn
    else tls_connection_find next addr port

/-! ## `tls_connection_load_cipher` (lines 511-525) -/

/-- The function `tls_connection_load_cipher`: the return value and the session after the call. -/
def tls_connection_load_cipher (conn : SSLConnection) : Int × SSLConnection :=
  if conn.cipher_suite.cs1 ≠ 0x00 then (1, conn)
  else if conn.cipher_suite.cs2 = TLS_RSA_WITH_AES_256_CBC_SHA.cs2 then
    (0, { conn with ciph := GCRY_CIPHER_AES256 })
  else if conn.cipher_suite.cs2 = TLS_RSA_WITH_AES_128_CBC_SHA.cs2 then
    (0, { conn with ciph := GCRY_CIPHER_AES })
  else (1, conn)

/-! ## `tls_process_record_data` (lines 479-509) -/

/-- Conversion of an `int` to `size_t` (64 bits). -/
def size_t_of_int (x : Int) : Nat := (x % 2 ^ 64).toNat

/-- The cast `(int32_t) x` of an unsigned value, also the conversion of a `uint32_t` to
`int`. -/
def int32_of_nat (x : Nat) : Int :=
  if x % 2 ^ 32 < 2 ^ 31 then ((x % 2 ^ 32 : Nat) : Int) else ((x % 2 ^ 32 : Nat) : Int) - 2 ^ 32

/-- The function `tls_process_record_data(conn, fragment, len, out, outl)`: `out` is the
array `*out` and `outl` the value of `*outl` on entry.  Returns the return value, the
session (the handle that was used has advanced), `*out` and `*outl`.  A `NULL` handle,
`len = 0` (`decoded[len - 1]`) and a copy that does not fit `*out` are undefined:
`none`. -/
def tls_process_record_data (env : Env) (conn : SSLConnection) (fragment : Mem) (len : Nat)
    (out : List Nat) (outl : Nat) : Option (Int × SSLConnection × List Nat × Nat) :=
  match (if conn.direction = 0 then conn.client_cipher_ctx else conn.server_cipher_ctx) with
  | none => none
  | some evp =>
    if len = 0 then none
    else
      let r := env.gcry_cipher_decrypt evp (fragment.bytes 0 len)
      let conn1 := if conn.direction = 0 then { conn with client_cipher_ctx := some r.1 }
        else { conn with server_cipher_ctx := some r.1 }
      let decoded := r.2
      let pad := decoded.getD (len - 1) 0
      let dlen := size_t_of_int ((len : Int) - ((pad : Int) + 1) - 20)
      if int32_of_nat dlen > 0 ∧ dlen ≤ outl then
        match memcpy out 0 decoded dlen with
        | none => none
        | some out1 => some (int32_of_nat (dlen % 2 ^ 32), conn1, out1, dlen % 2 ^ 32)
      else some (int32_of_nat outl, conn1, out, outl)

/-! ## `tls_process_record_handshake` (lines 365-477)

A session that `tls_connection_destroy` has freed is `none` in the result. -/

/-- The `client_key_exchange` case (lines 414-461).  Both `PRF` calls pass a 48-byte field
with `plen = 48`; the length is even, so `PRF` reads no byte after the field and the field
is given as a memory of its own. -/
def tls_process_client_key_exchange (env : Env) (conn : SSLConnection) (body : Mem) :
    Option (Int × Option SSLConnection) :=
  let exkeys := body.bytes 2 (UINT16_INT (body 0) (body 1))
  match env.gnutls_privkey_decrypt_data conn.server_private_key exkeys with
  | none => none
  | some pms =>
    match memcpy conn.pre_master_secret 0 pms pms.length with
    | none => none
    | some pre =>
      let conn1 := { conn with pre_master_secret := pre }
      match PRF env.md5 env.sha1 conn1.master_secret sizeof_MasterSecret
          (Mem.ofList conn1.pre_master_secret) sizeof_PreMasterSecret master_secret_label
          (conn1.client_random ++ conn1.server_random) with
      | none => none
      | some (ms, _) =>
        let conn2 := { conn1 with master_secret := ms }
        match PRF env.md5 env.sha1 conn2.key_material env.tls_data.size
            (Mem.ofList conn2.master_secret) sizeof_MasterSecret key_expansion_label
            (conn2.server_random ++ conn2.client_random) with
        | none => none
        | some (km, _) =>
          let conn3 := { conn2 with key_material := km }
          let keylen := gcry_cipher_get_algo_keylen conn3.ciph
          let blklen := gcry_cipher_get_algo_blklen conn3.ciph
          match gcry_cipher_open conn3.ciph with
          | none => none
          | some h =>
            let client : CipherCtx :=
              { h with key := (km.drop env.tls_data.client_write_key).take keylen,
                       iv := (km.drop env.tls_data.client_write_IV).take blklen }
            let server : CipherCtx :=
              { h with key := (km.drop env.tls_data.server_write_key).take keylen,
                       iv := (km.drop env.tls_data.server_write_IV).take blklen }
            some (0, some { conn3 with client_cipher_ctx := some client,
                                       server_cipher_ctx := some server })

/-- The function `tls_process_record_handshake(conn, fragment)`. -/
def tls_process_record_handshake (env : Env) (conn : SSLConnection) (fragment : Mem) :
    Option (Int × Option SSLConnection) :=
  if UINT24_INT (fragment 1) (fragment 2) (fragment 3) > 0 then
    let body := fragment.shift sizeof_Handshake
    let type := fragment 0
    if type = hello_request then some (0, some conn)
    else if type = client_hello then
      let conn1 := { conn with client_random := body.bytes 2 sizeof_Random }
      if ¬ (body 0 = 0x03 ∧ body 1 = 0x01) then some (1, none)
      else some (0, some conn1)
    else if type = server_hello then
      let conn1 := { conn with server_random := body.bytes 2 sizeof_Random }
      let at_suite := sizeof_ServerHello + body 34
      let conn2 :=
        { conn1 with cipher_suite := { cs1 := body at_suite, cs2 := body (at_suite + 1) } }
      let r := tls_connection_load_cipher conn2
      if r.1 ≠ 0 then some (1, none)
      else some (0, some r.2)
    else if type = certificate ∨ type = certificate_request ∨ type = server_hello_done
        ∨ type = certificate_verify then some (0, some conn)
    else if type = client_key_exchange then tls_process_client_key_exchange env conn body
    else if type = finished then some (0, some conn)
    else if conn.encrypted ≠ 0 then
      -- decoded = sng_malloc(48), decodedlen is not initialised; both are dropped
      match tls_process_record_data env conn fragment 48 (List.replicate 48 0) 0 with
      | none => none
      | some r => some (0, some r.2.1)
    else some (0, some conn)
  else some (0, some conn)

/-! ## `tls_process_record` (lines 316-363) -/

/-- The `switch (record->type)` of `tls_process_record` on a record with a non-empty
fragment: the value of an early `return` (0 when the function goes on), the session, `*out`
and `*outl`. -/
def tls_process_record_fragment (env : Env) (conn : SSLConnection) (type : Nat)
    (fragment : Mem) (length : Nat) (out : List Nat) (outl : Nat) :
    Option (Int × Option SSLConnection × List Nat × Nat) :=
  if type = handshake then
    match tls_process_record_handshake env conn fragment with
    | none => none
    | some r => if r.1 ≠ 0 then some (1, r.2, out, outl) else some (0, r.2, out, outl)
  else if type = change_cipher_spec then some (0, some { conn with encrypted := 1 }, out, outl)
  else if type = application_data then
    if conn.encrypted ≠ 0 then
      match tls_process_record_data env conn fragment length out outl with
      | none => none
      | some r => some (0, some r.2.1, r.2.2.1, r.2.2.2)
    else some (0, some conn, out, outl)
  else some (0, some conn, out, outl)

/-- The function `tls_process_record(conn, payload, len, out, outl)` with the recursion counted by a
fuel: every call on a non-empty buffer passes on at least 5 bytes less, so `len` is fuel
enough and fuel 0 is only met by `len = 0`. -/
def tls_process_record_aux (env : Env) :
    Nat → SSLConnection → Mem → Nat → List Nat → Nat →
      Option (Int × Option SSLConnection × List Nat × Nat)
  | 0, conn, _, _, out, outl => some (0, some conn, out, outl)
  | fuel + 1, conn, payload, len, out, outl =>
    if len = 0 then some (0, some conn, out, outl)
    else
      let length := UINT16_INT (payload 3) (payload 4)
      let record_len := sizeof_TLSPlaintext + length
      let after : Option (Int × Option SSLConnection × List Nat × Nat) :=
        if length > 0 then
          tls_process_record_fragment env conn (payload 0) (payload.shift sizeof_TLSPlaintext)
            length out outl
        else some (0, some conn, out, outl)
      match after with
      | none => none
      | some (ret, none, out1, outl1) => some (ret, none, out1, outl1)
      | some (ret, some conn1, out1, outl1) =>
        if ret ≠ 0 then some (ret, some conn1, out1, outl1)
        else if len > record_len then
          tls_process_record_aux env fuel conn1 (payload.shift record_len) (len - record_len)
            out1 outl1
        else some (0, some conn1, out1, outl1)

/-- The function `tls_process_record(conn, payload, len, out, outl)`: the return value, the session
(`none` once destroyed), `*out` and `*outl`. -/
def tls_process_record (env : Env) (conn : SSLConnection) (payload : Mem) (len : Nat)
    (out : List Nat) (outl : Nat) : Option (Int × Option SSLConnection × List Nat × Nat) :=
  tls_process_record_aux env len conn payload len out outl

/-! ## The key-derivation function as the specification words it -/

/-- The sequence `A(0) = seed`, `A(i) = HMAC(secret, A(i-1))`. -/
def A (d : Digest) (secret seed : List Nat) : Nat → List Nat
  | 0 => seed
  | i + 1 => d.hmac secret (A d secret seed i)

/-- The first `k` chunks `HMAC(secret, A(1) ++ seed) ++ ... ++ HMAC(secret, A(k) ++ seed)`. -/
def P_hash_stream (d : Digest) (secret seed : List Nat) : Nat → List Nat
  | 0 => []
  | k + 1 => P_hash_stream d secret seed k ++ d.hmac secret (A d secret seed (k + 1) ++ seed)

/-- The first `L` bytes of the chunk stream (with a non-empty digest `L` chunks hold at
least `L` bytes). -/
def P_hash_spec (d : Digest) (secret seed : List Nat) (L : Nat) : List Nat :=
  (P_hash_stream d secret seed L).take L

/-- The chunks that follow a given `A(i)`: `k` chunks starting with the one built on
`HMAC(secret, a)`. -/
def P_chunks (d : Digest) (secret seed : List Nat) : List Nat → Nat → List Nat
  | _, 0 => []
  | a, k + 1 =>
    d.hmac secret (d.hmac secret a ++ seed) ++ P_chunks d secret seed (d.hmac secret a) k

/-- The TLS 1.0 PRF of the specification: the secret is split into its first
`ceil(len/2)` bytes and its last `floor(len/2)` bytes, and the two `P_hash` outputs are
combined by exclusive-or. -/
def PRF_spec (md5 sha1 : Digest) (secret label seed : List Nat) (L : Nat) : List Nat :=
  let half1 := secret.take ((secret.length + 1) / 2)
  let half2 := secret.drop (secret.length - secret.length / 2)
  List.zipWith Nat.xor (P_hash_spec md5 half1 (label ++ seed) L)
    (P_hash_spec sha1 half2 (label ++ seed) L)

/-- The session that the `client_key_exchange` case leaves: the decrypted pre-master secret
`P`, the master secret and the key block derived from it, and one handle per direction
keyed from the fields of `struct tls_data`. -/
def after_client_key_exchange (env : Env) (conn : SSLConnection) (P : List Nat) :
    SSLConnection :=
  let ms := PRF_spec env.md5 env.sha1 P master_secret_label
    (conn.client_random ++ conn.server_random) sizeof_MasterSecret
  let km := PRF_spec env.md5 env.sha1 ms key_expansion_label
    (conn.server_random ++ conn.client_random) env.tls_data.size
  let keylen := gcry_cipher_get_algo_keylen conn.ciph
  let blklen := gcry_cipher_get_algo_blklen conn.ciph
  { conn with
    pre_master_secret := P
    master_secret := ms
    key_material := km
    client_cipher_ctx := some
      { algo := conn.ciph, key := (km.drop env.tls_data.client_write_key).take keylen,
        iv := (km.drop env.tls_data.client_write_IV).take blklen }
    server_cipher_ctx := some
      { algo := conn.ciph, key := (km.drop env.tls_data.server_write_key).take keylen,
        iv := (km.drop env.tls_data.server_write_IV).take blklen } }

/-! ## Stand-ins for the external functions, to run the embedding on concrete inputs -/

/-- A stand-in for an HMAC: `n` bytes that depend on every byte of the key and of the
message. -/
def toy_hmac (n tag : Nat) (key msg : List Nat) : List Nat :=
  (List.range n).map (fun i =>
    (tag + i + key.foldl (fun a b => (3 * a + b) % 251) 1
      + msg.foldl (fun a b => (5 * a + b) % 241) 2) % 256)

/-- The stand-in digest of `n` bytes. -/
def toy_digest (n tag : Nat) : Digest :=
  { dlen := n, hmac := toy_hmac n tag, hmac_len := fun _ _ => by simp [toy_hmac] }

/-- Stand-in CBC decryption: the output is the input, the chaining vector becomes the last
16 input bytes. -/
def toy_decrypt (c : CipherCtx) (x : List Nat) : CipherCtx × List Nat :=
  ({ c with iv := x.drop (x.length - 16) }, x)

/-- Stand-in RSA decryption: the first 48 bytes of a blob that has at least 48. -/
def toy_privkey_decrypt (_key blob : List Nat) : Option (List Nat) :=
  if 48 ≤ blob.length then some (blob.take 48) else none

/-- An environment built from the stand-ins, with the layout `tls_data_layout`. -/
def toy_env : Env :=
  { md5 := toy_digest 16 1, sha1 := toy_digest 20 2, md5_dlen := rfl, sha1_dlen := rfl,
    gcry_cipher_decrypt := toy_decrypt, gcry_cipher_decrypt_len := fun _ _ => rfl,
    gnutls_privkey_decrypt_data := toy_privkey_decrypt, tls_data := tls_data_layout,
    SSL_CTX_new_ok := true, SSL_new_ok := true, keyfile := some [1, 2, 3] }

/-- A session with both cipher handles set up, for concrete runs. -/
def toy_conn : SSLConnection :=
  { sng_malloc_SSLConnection toy_env with
    state := .TCP_STATE_ESTABLISHED, client_addr := 10, client_port := 5060,
    server_addr := 20, server_port := 5061, server_private_key := [1, 2, 3],
    ciph := GCRY_CIPHER_AES,
    client_cipher_ctx := some { algo := GCRY_CIPHER_AES, key := List.replicate 16 1,
                                iv := List.replicate 16 2 },
    server_cipher_ctx := some { algo := GCRY_CIPHER_AES, key := List.replicate 16 3,
                                iv := List.replicate 16 4 } }

/-- A handshake fragment with a `client_hello`: version 3.1 and the random 100..131. -/
def toy_client_hello : List Nat :=
  [1, 0, 0, 38, 3, 1] ++ (List.range 32).map (fun i => 100 + i) ++ [0, 0, 0, 0]

/-- A handshake fragment with a `server_hello`: the random 200..231, an empty session id and
the cipher suite `(0x00, cs2)`. -/
def toy_server_hello (cs2 : Nat) : List Nat :=
  [2, 0, 0, 38, 3, 1] ++ (List.range 32).map (fun i => 200 + i) ++ [0, 0, cs2, 0]

/-- A handshake fragment with a `client_key_exchange` whose blob is the 48 bytes 1..48. -/
def toy_client_key_exchange : List Nat :=
  [16, 0, 0, 50, 0, 48] ++ (List.range 48).map (fun i => 1 + i)

/-- The session `tls_connection_create` makes in `toy_env` for 10:5060 -> 20:5061. -/
def toy_new_conn : SSLConnection :=
  { sng_malloc_SSLConnection toy_env with
    client_addr := 10, client_port := 5060, server_addr := 20, server_port := 5061,
    server_private_key := [1, 2, 3] }

/-- The session `toy_new_conn` after `toy_client_hello` and `toy_server_hello cs2`, for a
supported suite with the algorithm `ciph`. -/
def toy_hello_conn (cs2 ciph : Nat) : SSLConnection :=
  { toy_new_conn with
    client_random := (List.range 32).map (fun i => 100 + i)
    server_random := (List.range 32).map (fun i => 200 + i)
    cipher_suite := { cs1 := 0, cs2 := cs2 }
    ciph := ciph }

/-- The claim on the key block as a statement on the layout: the client write key at 40,
the server write key at `40 + k`, the client IV at `40 + 2k`, the server IV at
`40 + 2k + b`. -/
def slices_as_claimed (L : TlsDataLayout) (k b : Nat) : Prop :=
  L.client_write_key = 40 ∧ L.server_write_key = 40 + k ∧ L.client_write_IV = 40 + 2 * k
  ∧ L.server_write_IV = 40 + 2 * k + b

/-- A 48-byte fragment whose last byte, the padding length under `toy_decrypt`, is 3. -/
def toy_fragment : List Nat := (List.range 47).map (fun i => 50 + i) ++ [3]

/-- A 32-byte fragment whose last byte, the padding length under `toy_decrypt`, is 31. -/
def toy_short_fragment : List Nat := List.replicate 31 0 ++ [31]

/-! ## `tls_process_segment` (lines 254-314) -/

/-- The TCP flag `TH_FIN` of `<netinet/tcp.h>`. -/
def TH_FIN : Nat := 0x01
/-- The TCP flag `TH_SYN` of `<netinet/tcp.h>`. -/
def TH_SYN : Nat := 0x02
/-- The TCP flag `TH_ACK` of `<netinet/tcp.h>`. -/
def TH_ACK : Nat := 0x10

/-- The C operator `~` on an `int`, as a 32-bit pattern. -/
def int_not (x : Nat) : Nat := 0xFFFFFFFF ^^^ x

/-- Modelled from the spec: `CAPTURE_PACKET_SIP_TLS` of the missing header `capture.h`, the
marker that a payload comes from a decrypted TLS record. -/
def CAPTURE_PACKET_SIP_TLS : Nat := 2

/-- Modelled from the spec: `capture_packet_t` of the missing header `capture.h`, the fields
`tls_process_segment` uses.  The addresses are the `in_addr` values `inet_pton` makes of
`ip_src` and `ip_dst`; `payload` and `payload_len` are what `capture_packet_get_payload`
and `capture_packet_get_payload_len` return. -/
structure capture_packet_t where
  ip_src : Nat
  ip_dst : Nat
  sport : Nat
  dport : Nat
  payload : Mem
  payload_len : Nat
  type : Nat

/-- Modelled from the spec: `capture_packet_set_payload` and `capture_packet_set_type` of
the missing `capture.c`, as `tls_process_segment` calls them: the packet gets the `outl`
bytes of `out` as its payload and the type `CAPTURE_PACKET_SIP_TLS`. -/
def capture_packet_set_tls_payload (packet : capture_packet_t) (out : List Nat) (outl : Nat) :
    capture_packet_t :=
  { packet with
    payload := Mem.ofList (out.take outl)
    payload_len := outl
    type := CAPTURE_PACKET_SIP_TLS }

/-- The session `tls_connection_find` returns, with its position in the list
`connections` (the pointer `conn`). -/
def tls_connection_find_at : List SSLConnection → Nat → Nat → Option (Nat × SSLConnection)
  | [], _, _ => none
  | conn :: next, addr, port =>
    if tls_connection_dir conn addr port ≠ -1 then some (0, conn)
    else (tls_connection_find_at next addr port).map (fun r => (r.1 + 1, r.2))

/-- The list `connections` after a call that worked on the session at position `i`: the
session was changed in place (`some`), or `tls_connection_destroy` unlinked it (`none`). -/
def registry_after (connections : List SSLConnection) (i : Nat) :
    Option SSLConnection → List SSLConnection
  | some conn => connections.set i conn
  | none => tls_connection_destroy connections i

/-- The function `tls_process_segment(packet, tcp)` on the list `connections`, with
`th_flags` the flags of the TCP header: the return value, the list and the packet after
the call.  `out` is the zero-filled block `sng_malloc(outl)`; the payload length of a
packet is far below `2^31`, so its conversion to the `int len` of `tls_process_record`
keeps it.  The flag tests are written as in the source, `&` being left associative and
`~` taken on an `int`. -/
def tls_process_segment (env : Env) (connections : List SSLConnection)
    (packet : capture_packet_t) (th_flags : Nat) :
    Option (Int × List SSLConnection × capture_packet_t) :=
  let outl := packet.payload_len
  let out := List.replicate outl 0
  match tls_connection_find_at connections packet.ip_src packet.sport with
  | some (i, found) =>
    let conn := { found with direction := tls_connection_dir found packet.ip_src packet.sport }
    match conn.state with
    | .TCP_STATE_SYN =>
      if th_flags &&& TH_SYN &&& int_not TH_ACK ≠ 0 then
        some (0, connections.set i { conn with state := .TCP_STATE_SYN_ACK }, packet)
      else some (0, connections.set i conn, packet)
    | .TCP_STATE_SYN_ACK =>
      if th_flags &&& int_not TH_SYN &&& TH_ACK ≠ 0 then
        some (0, connections.set i { conn with state := .TCP_STATE_ESTABLISHED }, packet)
      else some (0, connections.set i conn, packet)
    | .TCP_STATE_ACK | .TCP_STATE_ESTABLISHED =>
      match tls_process_record env conn packet.payload packet.payload_len out outl with
      | none => none
      | some r =>
        if r.1 = 0 ∧ int32_of_nat r.2.2.2 > 0 then
          some (0, registry_after connections i r.2.1,
            capture_packet_set_tls_payload packet r.2.2.1 r.2.2.2)
        else some (0, registry_after connections i r.2.1, packet)
    | .TCP_STATE_FIN | .TCP_STATE_CLOSED =>
      some (0, tls_connection_destroy (connections.set i conn) i, packet)
  | none =>
    if th_flags &&& TH_SYN &&& int_not TH_ACK ≠ 0 then
      some (0, (tls_connection_create env connections packet.ip_src packet.sport
        packet.ip_dst packet.dport).2, packet)
    else some (0, connections, packet)

/-- The call `tls_process_record_handshake(conn, fragment)` for `conn` the session at
position `i` of the list `connections`: the return value and the list after the call. -/
def tls_process_record_handshake_at (env : Env) (connections : List SSLConnection) (i : Nat)
    (fragment : Mem) : Option (Int × List SSLConnection) :=
  match connections[i]? with
  | none => none
  | some conn =>
    (tls_process_record_handshake env conn fragment).map
      (fun r => (r.1, registry_after connections i r.2))

/-- A finite sequence of `tls_process_segment` calls, each on the list the call before it
left: the list after the last call (`none` when a call is undefined). -/
def tls_process_segments (env : Env) :
    List SSLConnection → List (capture_packet_t × Nat) → Option (List SSLConnection)
  | connections, [] => some connections
  | connections, seg :: rest =>
    match tls_process_segment env connections seg.1 seg.2 with
    | none => none
    | some r => tls_process_segments env r.2.1 rest

/-- The identity tuple of a session. -/
def SSLConnection.identity (conn : SSLConnection) : Nat × Nat × Nat × Nat :=
  (conn.client_addr, conn.client_port, conn.server_addr, conn.server_port)

/-- The number of records `tls_process_record` visits: the calls of the recursion that are
made on a non-empty buffer, counted along `tls_process_record_aux`. -/
def tls_process_record_visits (env : Env) :
    Nat → SSLConnection → Mem → Nat → List Nat → Nat → Nat
  | 0, _, _, _, _, _ => 0
  | fuel + 1, conn, payload, len, out, outl =>
    if len = 0 then 0
    else
      let length := UINT16_INT (payload 3) (payload 4)
      let record_len := sizeof_TLSPlaintext + length
      let after : Option (Int × Option SSLConnection × List Nat × Nat) :=
        if length > 0 then
          tls_process_record_fragment env conn (payload 0) (payload.shift sizeof_TLSPlaintext)
            length out outl
        else some (0, some conn, out, outl)
      match after with
      | none => 1
      | some (_, none, _, _) => 1
      | some (ret, some conn1, out1, outl1) =>
        if ret ≠ 0 then 1
        else if len > record_len then
          1 + tls_process_record_visits env fuel conn1 (payload.shift record_len)
            (len - record_len) out1 outl1
        else 1

/-- Whether one of the records that lie back to back in the buffer, each as long as its
header declares, is a `change_cipher_spec` record with a non-empty fragment. -/
def has_change_cipher_spec : Nat → Mem → Nat → Bool
  | 0, _, _ => false
  | fuel + 1, payload, len =>
    if len = 0 then false
    else
      let length := UINT16_INT (payload 3) (payload 4)
      let record_len := sizeof_TLSPlaintext + length
      (decide (length > 0 ∧ payload 0 = change_cipher_spec))
        || (if len > record_len then
              has_change_cipher_spec fuel (payload.shift record_len) (len - record_len)
            else false)

/-- A packet from `ip_src:sport` to `ip_dst:dport` with the payload `bytes`. -/
def toy_packet (ip_src sport ip_dst dport : Nat) (bytes : List Nat) : capture_packet_t :=
  { ip_src := ip_src, ip_dst := ip_dst, sport := sport, dport := dport,
    payload := Mem.ofList bytes, payload_len := bytes.length, type := 0 }

/-- The session `toy_new_conn` in state SYN_ACK. -/
def toy_syn_ack_conn : SSLConnection :=
  { toy_new_conn with state := .TCP_STATE_SYN_ACK }

/-- A session for 30:1000 -> 40:2000, in state ESTABLISHED. -/
def toy_other_conn : SSLConnection :=
  { sng_malloc_SSLConnection toy_env with
    state := .TCP_STATE_ESTABLISHED, client_addr := 30, client_port := 1000,
    server_addr := 40, server_port := 2000, server_private_key := [1, 2, 3] }

/-- A second `client_key_exchange` fragment, whose blob is the 48 bytes 2..49. -/
def toy_client_key_exchange2 : List Nat :=
  [16, 0, 0, 50, 0, 48] ++ (List.range 48).map (fun i => 2 + i)

/-- The session `toy_hello_conn 0x2F GCRY_CIPHER_AES` after `toy_client_key_exchange`: the
suite, the secrets and both handles are derived. -/
def toy_keyed_conn : SSLConnection :=
  after_client_key_exchange toy_env (toy_hello_conn 0x2F GCRY_CIPHER_AES)
    ((List.range 48).map (fun i => 1 + i))

/-- A `client_hello` fragment that advertises version 3.0. -/
def toy_client_hello_v30 : List Nat :=
  [1, 0, 0, 38, 3, 0] ++ (List.range 32).map (fun i => 100 + i) ++ [0, 0, 0, 0]

/-- Three segments: a SYN from 10:5060 to 20:5061, a SYN from 30:1000 to 20:5061 and a
SYN/ACK from 20:5061 to 10:5060. -/
def toy_segments : List (capture_packet_t × Nat) :=
  [(toy_packet 10 5060 20 5061 [], TH_SYN), (toy_packet 30 1000 20 5061 [], TH_SYN),
    (toy_packet 20 5061 10 5060 [], TH_SYN ||| TH_ACK)]

/-- The session `toy_keyed_conn` after a `change_cipher_spec` record: `encrypted` is set. -/
def toy_keyed_encrypted_conn : SSLConnection :=
  { toy_keyed_conn with encrypted := 1 }

/-- A 48-byte handshake fragment whose type byte, 99, is none of the types that
`tls_process_record_handshake` names, as the encrypted `finished` message is. -/
def toy_encrypted_handshake : List Nat :=
  [99, 0, 0, 44] ++ (List.range 44).map (fun i => 60 + i)

/-- The session `toy_keyed_encrypted_conn` after `toy_encrypted_handshake` went through
`toy_decrypt` on the client handle. -/
def toy_after_encrypted_handshake : SSLConnection :=
  { toy_keyed_encrypted_conn with
    client_cipher_ctx :=
      toy_keyed_encrypted_conn.client_cipher_ctx.map
        (fun evp => (toy_decrypt evp toy_encrypted_handshake).1) }

/-- The session `toy_keyed_encrypted_conn` while a segment from the server is processed:
`direction` is 1. -/
def toy_keyed_encrypted_server_conn : SSLConnection :=
  { toy_keyed_encrypted_conn with direction := 1 }

/-! ## Lemmas on the chunk stream and on `memcpy` -/

theorem memcpy_eq_some (dst : List Nat) (off : Nat) (src : List Nat) (n : Nat)
    (h1 : off + n ≤ dst.length) (h2 : n ≤ src.length) :
    memcpy dst off src n = some (dst.take off ++ src.take n ++ dst.drop (off + n)) := by
  simp [memcpy, h1, h2]

theorem P_chunks_length (d : Digest) (secret seed : List Nat) (a : List Nat) (k : Nat) :
    (P_chunks d secret seed a k).length = k * d.dlen := by
  induction k generalizing a with
  | zero => simp [P_chunks]
  | succ k ih => simp [P_chunks, ih, d.hmac_len, Nat.succ_mul, Nat.add_comm]

theorem P_chunks_take_add (d : Digest) (secret seed : List Nat) (k j : Nat) :
    ∀ (a : List Nat) (n : Nat), n ≤ k * d.dlen →
      (P_chunks d secret seed a (k + j)).take n = (P_chunks d secret seed a k).take n := by
  induction k with
  | zero => intro a n hn; simp at hn; subst hn; simp
  | succ k ih =>
    intro a n hn
    have e : k + 1 + j = (k + j) + 1 := by omega
    rw [e]
    simp only [P_chunks]
    rw [List.take_append_eq_append_take, List.take_append_eq_append_take]
    congr 1
    apply ih
    rw [d.hmac_len]
    rw [Nat.succ_mul] at hn
    omega

theorem P_chunks_A (d : Digest) (secret seed : List Nat) (k : Nat) :
    ∀ i, P_chunks d secret seed (A d secret seed i) (k + 1)
      = P_chunks d secret seed (A d secret seed i) k
        ++ d.hmac secret (A d secret seed (i + k + 1) ++ seed) := by
  induction k with
  | zero => intro i; simp [P_chunks, A]
  | succ k ih =>
    intro i
    have h := ih (i + 1)
    have e : i + (k + 1) + 1 = i + 1 + k + 1 := by omega
    rw [P_chunks, e]
    simp only [A] at h
    rw [h]
    simp [P_chunks, A]

theorem P_hash_stream_eq_chunks (d : Digest) (secret seed : List Nat) (k : Nat) :
    P_hash_stream d secret seed k = P_chunks d secret seed seed k := by
  induction k with
  | zero => simp [P_hash_stream, P_chunks]
  | succ k ih =>
    have h := P_chunks_A d secret seed k 0
    simp only [A] at h
    rw [P_hash_stream, ih, h]
    simp [A]

theorem memcpy_zero_all (dst src : List Nat) (n : Nat) (h1 : src.length = n)
    (h2 : n ≤ dst.length) : memcpy dst 0 src n = some (src ++ dst.drop n) := by
  rw [memcpy_eq_some _ _ _ _ (by omega) (by omega)]
  subst h1
  simp

theorem P_hash_loop_spec (d : Digest) (secret seed : List Nat) (hd0 : 0 < d.dlen)
    (hd48 : d.dlen ≤ 48) :
    ∀ (fuel : Nat) (tmpseed : List Nat) (tmpslen : Nat) (dest : List Nat) (out pending : Nat)
      (hlen : Option Nat),
      pending ≤ fuel → d.dlen ≤ tmpseed.length → out + pending ≤ dest.length →
      ∃ r, P_hash_loop d secret seed fuel tmpseed tmpslen dest out pending hlen
        = some (dest.take out
            ++ (P_chunks d secret seed (tmpseed.take tmpslen) pending).take pending
            ++ dest.drop (out + pending), r) := by
  intro fuel
  induction fuel with
  | zero =>
    intro tmpseed tmpslen dest out pending hlen hf _ _
    have hp : pending = 0 := by omega
    subst hp
    exact ⟨hlen, by simp [P_hash_loop]⟩
  | succ fuel ih =>
    intro tmpseed tmpslen dest out pending hlen hf hts hdest
    by_cases hp : pending > 0
    · obtain ⟨p, rfl⟩ : ∃ p, pending = p + 1 := ⟨pending - 1, by omega⟩
      obtain ⟨a1, ha1⟩ : ∃ a1, a1 = d.hmac secret (tmpseed.take tmpslen) := ⟨_, rfl⟩
      have la1 : a1.length = d.dlen := by rw [ha1]; exact d.hmac_len _ _
      obtain ⟨c, hc⟩ : ∃ c, c = d.hmac secret (a1 ++ seed) := ⟨_, rfl⟩
      have lc : c.length = d.dlen := by rw [hc]; exact d.hmac_len _ _
      obtain ⟨hlen1, hh⟩ : ∃ h, h = if d.dlen > p + 1 then p + 1 else d.dlen := ⟨_, rfl⟩
      have hle1 : hlen1 ≤ d.dlen := by rw [hh]; split <;> omega
      have hle2 : hlen1 ≤ p + 1 := by rw [hh]; split <;> omega
      have m1 : memcpy tmpseed 0 a1 d.dlen = some (a1 ++ tmpseed.drop d.dlen) :=
        memcpy_zero_all _ _ _ la1 hts
      have t1 : (a1 ++ tmpseed.drop d.dlen).take d.dlen = a1 := List.take_left' la1
      have m2 : memcpy (List.replicate 48 0) 0 c d.dlen
          = some (c ++ (List.replicate 48 0).drop d.dlen) :=
        memcpy_zero_all _ _ _ lc (by rw [List.length_replicate]; exact hd48)
      have m3 : memcpy dest out (c ++ (List.replicate 48 0).drop d.dlen) hlen1
          = some (dest.take out ++ c.take hlen1 ++ dest.drop (out + hlen1)) := by
        rw [memcpy_eq_some _ _ _ _ (by omega) (by rw [List.length_append]; omega)]
        rw [List.take_append_of_le_length (by omega)]
      have lt : (dest.take out ++ c.take hlen1).length = out + hlen1 := by
        rw [List.length_append, List.length_take, List.length_take]; omega
      obtain ⟨r, hr⟩ := ih (a1 ++ tmpseed.drop d.dlen) d.dlen
        (dest.take out ++ c.take hlen1 ++ dest.drop (out + hlen1)) (out + hlen1)
        (p + 1 - hlen1) (some hlen1) (by rw [hh]; split <;> omega)
        (by rw [List.length_append]; omega)
        (by rw [List.length_append, lt, List.length_drop]; omega)
      have e1 : (dest.take out ++ c.take hlen1 ++ dest.drop (out + hlen1)).take (out + hlen1)
          = dest.take out ++ c.take hlen1 := List.take_left' lt
      have e2 : (dest.take out ++ c.take hlen1 ++ dest.drop (out + hlen1)).drop
          (out + hlen1 + (p + 1 - hlen1)) = dest.drop (out + (p + 1)) := by
        rw [← List.drop_drop, List.drop_left' lt, List.drop_drop]
        congr 1; omega
      have f1 : c.take hlen1 = c.take (p + 1) := by
        by_cases hcase : d.dlen > p + 1
        · rw [hh, if_pos hcase]
        · rw [hh, if_neg hcase, List.take_of_length_le (by omega),
            List.take_of_length_le (by omega)]
      have f2 : (P_chunks d secret seed a1 (p + 1 - hlen1)).take (p + 1 - hlen1)
          = (P_chunks d secret seed a1 p).take (p + 1 - d.dlen) := by
        by_cases hcase : d.dlen > p + 1
        · have z1 : p + 1 - hlen1 = 0 := by rw [hh, if_pos hcase]; omega
          have z2 : p + 1 - d.dlen = 0 := by omega
          rw [z1, z2]; simp
        · have h1 : hlen1 = d.dlen := by rw [hh, if_neg hcase]
          have hk : p = (p + 1 - d.dlen) + (d.dlen - 1) := by omega
          have := P_chunks_take_add d secret seed (p + 1 - d.dlen) (d.dlen - 1) a1
            (p + 1 - d.dlen) (Nat.le_mul_of_pos_right _ hd0)
          rw [← hk] at this
          rw [h1]
          exact this.symm
      refine ⟨r, ?_⟩
      rw [P_hash_loop, if_pos hp, ← ha1, m1]
      simp only []
      rw [t1, ← hc, m2]
      simp only []
      rw [← hh, m3]
      simp only []
      rw [hr, e1, e2, t1, f1, f2, P_chunks, ← ha1, ← hc, List.take_append_eq_append_take, lc]
      simp only [List.append_assoc]
    · have hp0 : pending = 0 := by omega
      subst hp0
      exact ⟨hlen, by simp [P_hash_loop]⟩

/-- On a digest that fits `hmac[48]` and `tmpseed[slen]`, `P_hash` fills `dest[0 .. L)` with
the first `L` bytes of the chunk stream and leaves the rest of `dest` as it was. -/
theorem P_hash_correct (d : Digest) (dest : List Nat) (L : Nat) (secret seed : List Nat)
    (hd0 : 0 < d.dlen) (hd48 : d.dlen ≤ 48) (hseed : d.dlen ≤ seed.length)
    (hdest : L ≤ dest.length) :
    ∃ r, P_hash d dest L secret seed
      = some (P_hash_spec d secret seed L ++ dest.drop L, r) := by
  obtain ⟨r, hr⟩ := P_hash_loop_spec d secret seed hd0 hd48 L seed seed.length dest 0 L none
    (le_refl _) hseed (by omega)
  refine ⟨r, ?_⟩
  rw [P_hash, hr, P_hash_spec, P_hash_stream_eq_chunks]
  simp

/-! ## `PRF`: what the code computes -/

theorem Mem.bytes_length (p : Mem) (off n : Nat) : (p.bytes off n).length = n := by
  simp [Mem.bytes]

theorem Mem.bytes_take (p : Mem) (off n k : Nat) (h : k ≤ n) :
    (p.bytes off n).take k = p.bytes off k := by
  unfold Mem.bytes
  rw [← List.map_take, List.take_range, Nat.min_eq_left h]

theorem Mem.bytes_drop (p : Mem) (off n k : Nat) :
    (p.bytes off n).drop k = p.bytes (off + k) (n - k) := by
  apply List.ext_getElem
  · simp [Mem.bytes]
  · intro i h1 h2
    simp [Mem.bytes, Nat.add_assoc]

theorem Mem.bytes_shift (p : Mem) (k off n : Nat) :
    (p.shift k).bytes off n = p.bytes (k + off) n := by
  simp [Mem.bytes, Mem.shift, Nat.add_assoc]

theorem Mem.bytes_ofList (l : List Nat) : (Mem.ofList l).bytes 0 l.length = l := by
  apply List.ext_getElem
  · simp [Mem.bytes]
  · intro i h1 h2
    simp [Mem.bytes, Mem.ofList, List.getD_eq_getElem?_getD, List.getElem?_eq_getElem h2]

theorem P_hash_spec_length (d : Digest) (secret seed : List Nat) (L : Nat) (hd0 : 0 < d.dlen) :
    (P_hash_spec d secret seed L).length = L := by
  rw [P_hash_spec, P_hash_stream_eq_chunks, List.length_take, P_chunks_length]
  exact Nat.min_eq_left (Nat.le_mul_of_pos_right _ hd0)

/-- What `PRF` computes, for any `plen`: the exclusive-or of the two `P_hash` streams keyed
with the `hplen` bytes at `pre_master_secret` and the `hplen` bytes at
`pre_master_secret + hplen`, where `hplen = plen / 2 + plen % 2`. -/
theorem PRF_eq (md5 sha1 : Digest) (dest : List Nat) (L : Nat) (pms : Mem) (plen : Nat)
    (label seed : List Nat)
    (h1 : 0 < md5.dlen) (h2 : md5.dlen ≤ 48) (h3 : md5.dlen ≤ (label ++ seed).length)
    (k1 : 0 < sha1.dlen) (k2 : sha1.dlen ≤ 48) (k3 : sha1.dlen ≤ (label ++ seed).length)
    (hdest : L ≤ dest.length) :
    PRF md5 sha1 dest L pms plen label seed
      = some (List.zipWith Nat.xor
          (P_hash_spec md5 (pms.bytes 0 (plen / 2 + plen % 2)) (label ++ seed) L)
          (P_hash_spec sha1 (pms.bytes (plen / 2 + plen % 2) (plen / 2 + plen % 2))
            (label ++ seed) L) ++ dest.drop L, L) := by
  obtain ⟨r1, e1⟩ := P_hash_correct md5 (List.replicate L 0) L
    (pms.bytes 0 (plen / 2 + plen % 2)) (label ++ seed) h1 h2 h3 (by simp)
  obtain ⟨r2, e2⟩ := P_hash_correct sha1 (List.replicate L 0) L
    (pms.bytes (plen / 2 + plen % 2) (plen / 2 + plen % 2)) (label ++ seed) k1 k2 k3 (by simp)
  have z : (List.replicate L 0).drop L = [] := by simp
  rw [z, List.append_nil] at e1 e2
  unfold PRF
  simp only [e1, e2, xor_into]
  rw [memcpy_zero_all _ _ L
    (by rw [List.length_zipWith, P_hash_spec_length _ _ _ _ h1, P_hash_spec_length _ _ _ _ k1,
          Nat.min_self]) hdest]

/-- On a secret of even length `PRF` is the PRF of the specification on the `plen` bytes of
the secret. -/
theorem PRF_even (md5 sha1 : Digest) (dest : List Nat) (L : Nat) (pms : Mem) (plen : Nat)
    (label seed : List Nat)
    (h1 : 0 < md5.dlen) (h2 : md5.dlen ≤ 48) (h3 : md5.dlen ≤ (label ++ seed).length)
    (k1 : 0 < sha1.dlen) (k2 : sha1.dlen ≤ 48) (k3 : sha1.dlen ≤ (label ++ seed).length)
    (hdest : L ≤ dest.length) (heven : plen % 2 = 0) :
    PRF md5 sha1 dest L pms plen label seed
      = some (PRF_spec md5 sha1 (pms.bytes 0 plen) label seed L ++ dest.drop L, L) := by
  rw [PRF_eq md5 sha1 dest L pms plen label seed h1 h2 h3 k1 k2 k3 hdest]
  unfold PRF_spec
  simp only [Mem.bytes_length]
  have a1 : plen / 2 + plen % 2 = (plen + 1) / 2 := by omega
  have a2 : plen - plen / 2 = (plen + 1) / 2 := by omega
  have a3 : plen - (plen + 1) / 2 = (plen + 1) / 2 := by omega
  rw [a1, a2, Mem.bytes_take _ _ _ _ (by omega), Mem.bytes_drop, Nat.zero_add, a3]

set_option maxRecDepth 100000 in
/-- C1 (at the failing input): a secret of the odd length 3, with the 16-byte and 20-byte
digests of `toy_env`, the label `"master secret"` and an 8-byte seed.  Two memories hold
the same secret `[1, 2, 3]` and differ in the byte after it; `PRF` gives different outputs
on them, so it uses the byte at index `plen`, outside the secret (its second key is the
`hplen = 2` bytes at offset 2, not the last `floor(3/2) = 1` byte), and its output is not
the PRF of the specification on the secret. -/
theorem PRF_odd_secret_reads_past_the_secret :
    (Mem.ofList [1, 2, 3, 0]).bytes 0 3 = [1, 2, 3]
    ∧ (Mem.ofList [1, 2, 3, 9]).bytes 0 3 = [1, 2, 3]
    ∧ (PRF toy_env.md5 toy_env.sha1 [0, 0, 0, 0] 4 (Mem.ofList [1, 2, 3, 9]) 3
        master_secret_label [1, 2, 3, 4, 5, 6, 7, 8]).isSome = true
    ∧ PRF toy_env.md5 toy_env.sha1 [0, 0, 0, 0] 4 (Mem.ofList [1, 2, 3, 0]) 3
        master_secret_label [1, 2, 3, 4, 5, 6, 7, 8]
      ≠ PRF toy_env.md5 toy_env.sha1 [0, 0, 0, 0] 4 (Mem.ofList [1, 2, 3, 9]) 3
        master_secret_label [1, 2, 3, 4, 5, 6, 7, 8]
    ∧ PRF toy_env.md5 toy_env.sha1 [0, 0, 0, 0] 4 (Mem.ofList [1, 2, 3, 9]) 3
        master_secret_label [1, 2, 3, 4, 5, 6, 7, 8]
      ≠ some (PRF_spec toy_env.md5 toy_env.sha1 [1, 2, 3] master_secret_label
          [1, 2, 3, 4, 5, 6, 7, 8] 4, 4) := by
  decide

/-- C2 (at the failing input): the 16-byte digest of `toy_env` and a seed of one byte.  `tmpseed` is
declared with `slen = 1` byte and the first iteration copies the 16-byte `A(1)` into it:
the write is out of bounds and `P_hash` has no defined result. -/
theorem P_hash_short_seed_overflows_tmpseed :
    P_hash toy_env.md5 (List.replicate 16 0) 16 [1] [7] = none := by
  decide

/-! ## The cipher-suite table -/

/-- C3: `tls_connection_load_cipher` returns 0 and selects AES-256 exactly for the stored
code (0x00,0x35), returns 0 and selects AES-128 (libgcrypt's `"AES"`, 16-byte key) exactly
for (0x00,0x2F), and for every other code, in particular (0x00,0x99) and (0x01,0x2F),
returns 1 and leaves the session, with its selected algorithm, as it was. -/
theorem tls_connection_load_cipher_table (conn : SSLConnection) :
    tls_connection_load_cipher conn
      = (if conn.cipher_suite = { cs1 := 0x00, cs2 := 0x35 } then
          (0, { conn with ciph := GCRY_CIPHER_AES256 })
        else if conn.cipher_suite = { cs1 := 0x00, cs2 := 0x2F } then
          (0, { conn with ciph := GCRY_CIPHER_AES })
        else (1, conn))
    ∧ gcry_cipher_get_algo_keylen GCRY_CIPHER_AES256 = 32
    ∧ gcry_cipher_get_algo_keylen GCRY_CIPHER_AES = 16
    ∧ tls_connection_load_cipher { conn with cipher_suite := { cs1 := 0x00, cs2 := 0x99 } }
      = (1, { conn with cipher_suite := { cs1 := 0x00, cs2 := 0x99 } })
    ∧ tls_connection_load_cipher { conn with cipher_suite := { cs1 := 0x01, cs2 := 0x2F } }
      = (1, { conn with cipher_suite := { cs1 := 0x01, cs2 := 0x2F } }) := by
  refine ⟨?_, by decide, by decide, by simp [tls_connection_load_cipher,
    TLS_RSA_WITH_AES_256_CBC_SHA, TLS_RSA_WITH_AES_128_CBC_SHA], by
    simp [tls_connection_load_cipher]⟩
  have hcs : ∀ a b : Nat, (conn.cipher_suite = { cs1 := a, cs2 := b })
      = (conn.cipher_suite.cs1 = a ∧ conn.cipher_suite.cs2 = b) := by
    intro a b
    cases conn.cipher_suite
    simp
  simp only [tls_connection_load_cipher, hcs, TLS_RSA_WITH_AES_256_CBC_SHA,
    TLS_RSA_WITH_AES_128_CBC_SHA]
  by_cases h1 : conn.cipher_suite.cs1 = 0
  · by_cases h2 : conn.cipher_suite.cs2 = 0x35
    · simp [h1, h2]
    · by_cases h3 : conn.cipher_suite.cs2 = 0x2F
      · simp [h1, h3]
      · simp [h1, h2, h3]
  · simp [h1]

/-! ## The handshake: `client_key_exchange` -/

theorem PRF_spec_length (md5 sha1 : Digest) (secret label seed : List Nat) (L : Nat)
    (h1 : 0 < md5.dlen) (k1 : 0 < sha1.dlen) :
    (PRF_spec md5 sha1 secret label seed L).length = L := by
  unfold PRF_spec
  simp only [List.length_zipWith, P_hash_spec_length _ _ _ _ h1, P_hash_spec_length _ _ _ _ k1,
    Nat.min_self]

theorem tls_process_client_key_exchange_eq (env : Env) (conn : SSLConnection) (body : Mem)
    (P : List Nat) (hwf : conn.wf env)
    (hdec : env.gnutls_privkey_decrypt_data conn.server_private_key
      (body.bytes 2 (UINT16_INT (body 0) (body 1))) = some P)
    (hP : P.length = 48)
    (hciph : conn.ciph = GCRY_CIPHER_AES ∨ conn.ciph = GCRY_CIPHER_AES256) :
    tls_process_client_key_exchange env conn body
      = some (0, some (after_client_key_exchange env conn P)) := by
  obtain ⟨w1, w2, w3, w4, w5⟩ := hwf
  simp only [sizeof_Random, sizeof_PreMasterSecret, sizeof_MasterSecret] at w1 w2 w3 w4
  have hm1 : memcpy conn.pre_master_secret 0 P P.length = some P := by
    rw [memcpy_zero_all _ _ _ rfl (by omega), hP, ← w3]
    simp
  have hseed1 : (master_secret_label ++ (conn.client_random ++ conn.server_random)).length
      = 77 := by
    simp [master_secret_label, w1, w2]
  have hseed2 : (key_expansion_label ++ (conn.server_random ++ conn.client_random)).length
      = 77 := by
    simp [key_expansion_label, w1, w2]
  have d1 := env.md5_dlen
  have d2 := env.sha1_dlen
  have hb1 : (Mem.ofList P).bytes 0 48 = P := by rw [← hP]; exact Mem.bytes_ofList P
  have hprf1 := PRF_even env.md5 env.sha1 conn.master_secret 48 (Mem.ofList P) 48
    master_secret_label (conn.client_random ++ conn.server_random)
    (by omega) (by omega) (by omega) (by omega) (by omega) (by omega) (by omega) (by decide)
  rw [hb1] at hprf1
  have hdrop1 : conn.master_secret.drop 48 = [] := by rw [← w4]; simp
  rw [hdrop1, List.append_nil] at hprf1
  obtain ⟨ms, hms⟩ : ∃ ms, ms = PRF_spec env.md5 env.sha1 P master_secret_label
      (conn.client_random ++ conn.server_random) 48 := ⟨_, rfl⟩
  have lms : ms.length = 48 := by
    rw [hms]; exact PRF_spec_length _ _ _ _ _ _ (by omega) (by omega)
  have hb2 : (Mem.ofList ms).bytes 0 48 = ms := by rw [← lms]; exact Mem.bytes_ofList ms
  have hprf2 := PRF_even env.md5 env.sha1 conn.key_material env.tls_data.size (Mem.ofList ms) 48
    key_expansion_label (conn.server_random ++ conn.client_random)
    (by omega) (by omega) (by omega) (by omega) (by omega) (by omega) (by omega) (by decide)
  rw [hb2] at hprf2
  have hdrop2 : conn.key_material.drop env.tls_data.size = [] := by rw [← w5]; simp
  rw [hdrop2, List.append_nil] at hprf2
  have hopen : gcry_cipher_open conn.ciph = some { algo := conn.ciph, key := [], iv := [] } := by
    rcases hciph with h | h <;> rw [h] <;> decide
  rw [← hms] at hprf1
  simp only [tls_process_client_key_exchange, hdec, hm1, sizeof_MasterSecret,
    sizeof_PreMasterSecret, hprf1, hprf2, hopen, after_client_key_exchange, ← hms]

theorem tls_connection_load_cipher_ok (c : SSLConnection)
    (h : (tls_connection_load_cipher c).1 = 0) :
    ((tls_connection_load_cipher c).2.ciph = GCRY_CIPHER_AES
      ∨ (tls_connection_load_cipher c).2.ciph = GCRY_CIPHER_AES256)
    ∧ (tls_connection_load_cipher c).2
      = { c with ciph := (tls_connection_load_cipher c).2.ciph } := by
  unfold tls_connection_load_cipher at h ⊢
  by_cases h1 : c.cipher_suite.cs1 ≠ 0x00
  · rw [if_pos h1] at h; simp at h
  · rw [if_neg h1] at h ⊢
    by_cases h2 : c.cipher_suite.cs2 = TLS_RSA_WITH_AES_256_CBC_SHA.cs2
    · rw [if_pos h2]; simp
    · rw [if_neg h2] at h ⊢
      by_cases h3 : c.cipher_suite.cs2 = TLS_RSA_WITH_AES_128_CBC_SHA.cs2
      · rw [if_pos h3]; simp
      · rw [if_neg h3] at h; simp at h

theorem handshake_client_hello (env : Env) (conn conn1 : SSLConnection) (f : Mem)
    (t : f 0 = client_hello) (l : 0 < UINT24_INT (f 1) (f 2) (f 3))
    (h : tls_process_record_handshake env conn f = some (0, some conn1)) :
    conn1 = { conn with client_random := f.bytes 6 32 } := by
  unfold tls_process_record_handshake at h
  simp only [l, gt_iff_lt, if_true, t, client_hello, hello_request, sizeof_Handshake,
    sizeof_Random, Mem.bytes_shift] at h
  simp only [show ¬ (1 = 0) by decide, if_false, if_true] at h
  split at h
  · simp at h
  · simp only [Option.some.injEq, Prod.mk.injEq, true_and] at h
    exact h.symm

theorem handshake_server_hello (env : Env) (conn conn2 : SSLConnection) (f : Mem)
    (t : f 0 = server_hello) (l : 0 < UINT24_INT (f 1) (f 2) (f 3))
    (h : tls_process_record_handshake env conn f = some (0, some conn2)) :
    (conn2.ciph = GCRY_CIPHER_AES ∨ conn2.ciph = GCRY_CIPHER_AES256)
    ∧ conn2 = { conn with
        server_random := f.bytes 6 32
        cipher_suite := { cs1 := f (4 + (35 + f 38)), cs2 := f (4 + (35 + f 38 + 1)) }
        ciph := conn2.ciph } := by
  unfold tls_process_record_handshake at h
  simp only [l, gt_iff_lt, if_true, t, client_hello, hello_request, server_hello,
    sizeof_Handshake, sizeof_Random, sizeof_ServerHello, Mem.bytes_shift] at h
  simp only [show ¬ (2 = 0) by decide, show ¬ (2 = 1) by decide, if_false, if_true] at h
  split at h
  · simp at h
  · rename_i hr
    simp only [Option.some.injEq, Prod.mk.injEq, true_and] at h
    have hr0 := tls_connection_load_cipher_ok _ (not_not.mp hr)
    rw [h] at hr0
    exact ⟨hr0.1, hr0.2⟩

theorem handshake_client_key_exchange (env : Env) (conn : SSLConnection) (f : Mem)
    (t : f 0 = client_key_exchange) (l : 0 < UINT24_INT (f 1) (f 2) (f 3)) :
    tls_process_record_handshake env conn f
      = tls_process_client_key_exchange env conn (f.shift 4) := by
  unfold tls_process_record_handshake
  simp only [l, gt_iff_lt, if_true, t, client_hello, hello_request, server_hello, certificate,
    certificate_request, server_hello_done, certificate_verify, client_key_exchange,
    sizeof_Handshake]
  simp

/-- C4: a session that has processed a ClientHello with random `Rc` (bytes 6..37 of the
fragment `f1`) and a ServerHello with random `Rs` (bytes 6..37 of `f2`), on a
`client_key_exchange` fragment `f3` whose blob RSA-decrypts to a 48-byte `P`: the call
returns 0 and leaves `master_secret = PRF(P, "master secret", Rc ++ Rs, 48)` and
`key_material = PRF(master_secret, "key expansion", Rs ++ Rc, sizeof(struct tls_data))`,
both as the value `PRF` of the code returns and as the PRF of the specification. -/
theorem tls_client_key_exchange_derives_keys (env : Env) (conn0 conn1 conn2 : SSLConnection)
    (f1 f2 f3 : Mem) (P : List Nat) (hwf : conn0.wf env)
    (t1 : f1 0 = client_hello) (l1 : 0 < UINT24_INT (f1 1) (f1 2) (f1 3))
    (h1 : tls_process_record_handshake env conn0 f1 = some (0, some conn1))
    (t2 : f2 0 = server_hello) (l2 : 0 < UINT24_INT (f2 1) (f2 2) (f2 3))
    (h2 : tls_process_record_handshake env conn1 f2 = some (0, some conn2))
    (t3 : f3 0 = client_key_exchange) (l3 : 0 < UINT24_INT (f3 1) (f3 2) (f3 3))
    (hdec : env.gnutls_privkey_decrypt_data conn2.server_private_key
      (f3.bytes 6 (UINT16_INT (f3 4) (f3 5))) = some P)
    (hP : P.length = 48) :
    ∃ conn3, tls_process_record_handshake env conn2 f3 = some (0, some conn3)
      ∧ PRF env.md5 env.sha1 conn2.master_secret 48 (Mem.ofList P) 48 master_secret_label
          (f1.bytes 6 32 ++ f2.bytes 6 32) = some (conn3.master_secret, 48)
      ∧ conn3.master_secret
          = PRF_spec env.md5 env.sha1 P master_secret_label (f1.bytes 6 32 ++ f2.bytes 6 32) 48
      ∧ PRF env.md5 env.sha1 conn2.key_material env.tls_data.size
          (Mem.ofList conn3.master_secret) 48 key_expansion_label
          (f2.bytes 6 32 ++ f1.bytes 6 32) = some (conn3.key_material, env.tls_data.size)
      ∧ conn3.key_material
          = PRF_spec env.md5 env.sha1 conn3.master_secret key_expansion_label
              (f2.bytes 6 32 ++ f1.bytes 6 32) env.tls_data.size := by
  have e1 := handshake_client_hello env conn0 conn1 f1 t1 l1 h1
  obtain ⟨hciph, e2⟩ := handshake_server_hello env conn1 conn2 f2 t2 l2 h2
  obtain ⟨w1, w2, w3, w4, w5⟩ := hwf
  simp only [sizeof_PreMasterSecret, sizeof_MasterSecret] at w3 w4
  have c2 : conn2.client_random = f1.bytes 6 32 := by rw [e2, e1]
  have s2 : conn2.server_random = f2.bytes 6 32 := by rw [e2]
  have m2 : conn2.master_secret = conn0.master_secret := by rw [e2, e1]
  have k2 : conn2.key_material = conn0.key_material := by rw [e2, e1]
  have p2 : conn2.pre_master_secret = conn0.pre_master_secret := by rw [e2, e1]
  have hwf2 : conn2.wf env := by
    refine ⟨?_, ?_, ?_, ?_, ?_⟩
    · rw [c2]; exact Mem.bytes_length _ _ _
    · rw [s2]; exact Mem.bytes_length _ _ _
    · rw [p2]; exact w3
    · rw [m2]; exact w4
    · rw [k2]; exact w5
  have hdec' : env.gnutls_privkey_decrypt_data conn2.server_private_key
      ((f3.shift 4).bytes 2 (UINT16_INT ((f3.shift 4) 0) ((f3.shift 4) 1))) = some P := by
    rw [Mem.bytes_shift]; exact hdec
  have hk := tls_process_client_key_exchange_eq env conn2 (f3.shift 4) P hwf2 hdec' hP hciph
  have d1 := env.md5_dlen
  have d2 := env.sha1_dlen
  have hl1 : (f1.bytes 6 32).length = 32 := Mem.bytes_length _ _ _
  have hl2 : (f2.bytes 6 32).length = 32 := Mem.bytes_length _ _ _
  have hb1 : (Mem.ofList P).bytes 0 48 = P := by rw [← hP]; exact Mem.bytes_ofList P
  have hs1 : (master_secret_label ++ (f1.bytes 6 32 ++ f2.bytes 6 32)).length = 77 := by
    simp [master_secret_label, Mem.bytes_length]
  have hs2 : (key_expansion_label ++ (f2.bytes 6 32 ++ f1.bytes 6 32)).length = 77 := by
    simp [key_expansion_label, Mem.bytes_length]
  have lms : (PRF_spec env.md5 env.sha1 P master_secret_label
      (f1.bytes 6 32 ++ f2.bytes 6 32) 48).length = 48 :=
    PRF_spec_length _ _ _ _ _ _ (by omega) (by omega)
  refine ⟨after_client_key_exchange env conn2 P, ?_, ?_, ?_, ?_, ?_⟩
  · rw [handshake_client_key_exchange env conn2 f3 t3 l3]; exact hk
  · rw [PRF_even env.md5 env.sha1 conn2.master_secret 48 (Mem.ofList P) 48
      master_secret_label (f1.bytes 6 32 ++ f2.bytes 6 32)
      (by omega) (by omega) (by omega) (by omega) (by omega)
      (by omega) (by rw [m2, w4]) (by decide), hb1]
    have : conn2.master_secret.drop 48 = [] := by
      rw [m2]; apply List.drop_eq_nil_of_le; omega
    rw [this, List.append_nil]
    simp [after_client_key_exchange, c2, s2, sizeof_MasterSecret]
  · simp [after_client_key_exchange, c2, s2, sizeof_MasterSecret]
  · have hms : (after_client_key_exchange env conn2 P).master_secret
        = PRF_spec env.md5 env.sha1 P master_secret_label
            (f1.bytes 6 32 ++ f2.bytes 6 32) 48 := by
      simp [after_client_key_exchange, c2, s2, sizeof_MasterSecret]
    rw [hms]
    rw [PRF_even env.md5 env.sha1 conn2.key_material env.tls_data.size _ 48
      key_expansion_label (f2.bytes 6 32 ++ f1.bytes 6 32)
      (by omega) (by omega) (by omega) (by omega) (by omega)
      (by omega) (by rw [k2, w5]) (by decide)]
    have hb2 := Mem.bytes_ofList (PRF_spec env.md5 env.sha1 P master_secret_label
      (f1.bytes 6 32 ++ f2.bytes 6 32) 48)
    rw [lms] at hb2
    rw [hb2]
    have : conn2.key_material.drop env.tls_data.size = [] := by
      rw [k2]; apply List.drop_eq_nil_of_le; omega
    rw [this, List.append_nil]
    simp [after_client_key_exchange, c2, s2, sizeof_MasterSecret]
  · simp [after_client_key_exchange, c2, s2, sizeof_MasterSecret]

/-- The witness of C4: the three handshake messages of a session of `toy_env`. -/
theorem tls_client_key_exchange_derives_keys_witness :
    ∃ conn3, tls_process_record_handshake toy_env (toy_hello_conn 0x2F GCRY_CIPHER_AES)
        (Mem.ofList toy_client_key_exchange) = some (0, some conn3)
      ∧ conn3.master_secret
          = PRF_spec toy_env.md5 toy_env.sha1 ((List.range 48).map (fun i => 1 + i))
              master_secret_label
              ((Mem.ofList toy_client_hello).bytes 6 32
                ++ (Mem.ofList (toy_server_hello 0x2F)).bytes 6 32) 48 :=
  have h := tls_client_key_exchange_derives_keys toy_env toy_new_conn
    { toy_new_conn with client_random := (List.range 32).map (fun i => 100 + i) }
    (toy_hello_conn 0x2F GCRY_CIPHER_AES)
    (Mem.ofList toy_client_hello) (Mem.ofList (toy_server_hello 0x2F))
    (Mem.ofList toy_client_key_exchange) ((List.range 48).map (fun i => 1 + i))
    (by decide) (by decide) (by decide) (by decide) (by decide) (by decide) (by decide)
    (by decide) (by decide) (by decide) (by decide)
  h.imp fun _ hc => ⟨hc.1, hc.2.2.1⟩

theorem no_layout_for_both_ciphers (L : TlsDataLayout) :
    ¬ (slices_as_claimed L 16 16 ∧ slices_as_claimed L 32 16) := by
  unfold slices_as_claimed
  omega

theorem tls_data_layout_fits_aes256 : slices_as_claimed tls_data_layout 32 16 := by
  unfold slices_as_claimed
  decide

set_option maxRecDepth 100000 in
/-- C5 (at the failing input): a session of `toy_env` whose ServerHello chose
(0x00,0x2F), AES-128 with `k = 16`, after `client_key_exchange`: the client handle is keyed
with `B[40 .. 56)`, but the server handle is keyed with `B[72 .. 88)`, the field
`server_write_key` of `struct tls_data`, and not with `B[56 .. 72)`; the IVs are
`B[104 .. 120)` and `B[120 .. 136)`, not `B[72 .. 88)` and `B[88 .. 104)`. -/
theorem tls_client_key_exchange_aes128_slices :
    ∃ conn3 client server,
      tls_process_record_handshake toy_env (toy_hello_conn 0x2F GCRY_CIPHER_AES)
        (Mem.ofList toy_client_key_exchange) = some (0, some conn3)
      ∧ conn3.client_cipher_ctx = some client ∧ conn3.server_cipher_ctx = some server
      ∧ client.key = (conn3.key_material.drop 40).take 16
      ∧ server.key = (conn3.key_material.drop 72).take 16
      ∧ server.key ≠ (conn3.key_material.drop 56).take 16
      ∧ client.iv = (conn3.key_material.drop 104).take 16
      ∧ client.iv ≠ (conn3.key_material.drop 72).take 16
      ∧ server.iv = (conn3.key_material.drop 120).take 16
      ∧ server.iv ≠ (conn3.key_material.drop 88).take 16 := by
  have hk := tls_process_client_key_exchange_eq toy_env (toy_hello_conn 0x2F GCRY_CIPHER_AES)
    ((Mem.ofList toy_client_key_exchange).shift 4) ((List.range 48).map (fun i => 1 + i))
    (by decide) (by decide) (by decide) (by decide)
  rw [← handshake_client_key_exchange toy_env _ (Mem.ofList toy_client_key_exchange)
    (by decide) (by decide)] at hk
  refine ⟨_, _, _, hk, rfl, rfl, rfl, rfl, ?_, rfl, ?_, rfl, ?_⟩
  · decide
  · decide
  · decide

/-! ## The record decryptor -/

theorem size_t_of_int_pos (m : Int) (h0 : 0 ≤ m) (h1 : m < 2 ^ 64) :
    size_t_of_int m = m.toNat := by
  unfold size_t_of_int
  rw [Int.emod_eq_of_lt h0 h1]

theorem int32_of_nat_small (x : Nat) (h : x < 2 ^ 31) : int32_of_nat x = (x : Int) := by
  unfold int32_of_nat
  have h1 : x % 2 ^ 32 = x := Nat.mod_eq_of_lt (by omega)
  rw [h1, if_pos h]

/-- C6: `tls_process_record_data` on a fragment of `n ≥ 1` bytes and a session whose two
handles are set up decrypts the `n` bytes with the client handle when `direction = 0` and
with the server handle when `direction = 1`; with `p` the last decrypted byte and
`m = n - (p + 1) - 20`, whenever `0 < m ≤ *outl` the first `m` bytes of `*out` are the first
`m` decrypted bytes (the rest of `*out` is kept) and `*outl` and the return value are `m`. -/
theorem tls_process_record_data_copies (env : Env) (conn : SSLConnection) (fragment : Mem)
    (n : Nat) (out : List Nat) (outl : Nat) (cctx sctx : CipherCtx) (m : Nat)
    (hn : 1 ≤ n) (hn31 : n < 2 ^ 31) (hcap : outl ≤ out.length)
    (hc : conn.client_cipher_ctx = some cctx) (hs : conn.server_cipher_ctx = some sctx)
    (hdir : conn.direction = 0 ∨ conn.direction = 1)
    (hm : (m : Int) = (n : Int)
      - (((env.gcry_cipher_decrypt (if conn.direction = 0 then cctx else sctx)
            (fragment.bytes 0 n)).2.getD (n - 1) 0 : Nat) + 1) - 20)
    (hm0 : 0 < m) (hmcap : m ≤ outl) :
    tls_process_record_data env conn fragment n out outl
      = some ((m : Int),
          (if conn.direction = 0 then
            { conn with
              client_cipher_ctx := some (env.gcry_cipher_decrypt cctx (fragment.bytes 0 n)).1 }
          else
            { conn with
              server_cipher_ctx := some (env.gcry_cipher_decrypt sctx (fragment.bytes 0 n)).1 }),
          (env.gcry_cipher_decrypt (if conn.direction = 0 then cctx else sctx)
            (fragment.bytes 0 n)).2.take m ++ out.drop m,
          m) := by
  have hn0 : n ≠ 0 := by omega
  have hlen := env.gcry_cipher_decrypt_len (if conn.direction = 0 then cctx else sctx)
    (fragment.bytes 0 n)
  rw [Mem.bytes_length] at hlen
  have hmn : m ≤ n := by omega
  have hsz : size_t_of_int ((n : Int)
      - (((env.gcry_cipher_decrypt (if conn.direction = 0 then cctx else sctx)
            (fragment.bytes 0 n)).2.getD (n - 1) 0 : Nat) + 1) - 20) = m := by
    rw [← hm, size_t_of_int_pos _ (by omega) (by omega)]
    simp
  have h32 : int32_of_nat m = (m : Int) := int32_of_nat_small m (by omega)
  have hmod : m % 2 ^ 32 = m := Nat.mod_eq_of_lt (by omega)
  have hcpy : memcpy out 0 (env.gcry_cipher_decrypt (if conn.direction = 0 then cctx else sctx)
      (fragment.bytes 0 n)).2 m
      = some ((env.gcry_cipher_decrypt (if conn.direction = 0 then cctx else sctx)
          (fragment.bytes 0 n)).2.take m ++ out.drop m) := by
    rw [memcpy_eq_some _ _ _ _ (by omega) (by omega)]
    simp
  rcases hdir with hd | hd
  · simp only [hd, if_true] at hsz hcpy ⊢
    simp only [tls_process_record_data, hd, if_true, hc, hn0, if_false, hsz, h32, hmod, hcpy]
    simp [hm0, hmcap]
  · have hd0 : ¬ (conn.direction = 0) := by omega
    simp only [hd0, if_false] at hsz hcpy ⊢
    simp only [tls_process_record_data, hd0, if_false, hs, hn0, hsz, h32, hmod, hcpy]
    simp [hm0, hmcap]

/-- When the test on the computed length fails, `tls_process_record_data` leaves `*out`
and `*outl` as they were and returns `*outl`. -/
theorem tls_process_record_data_no_copy (env : Env) (conn : SSLConnection) (fragment : Mem)
    (n : Nat) (out : List Nat) (outl : Nat) (ctx : CipherCtx)
    (hn : 1 ≤ n) (hn31 : n < 2 ^ 31)
    (hctx : (if conn.direction = 0 then conn.client_cipher_ctx else conn.server_cipher_ctx)
      = some ctx)
    (hp : (env.gcry_cipher_decrypt ctx (fragment.bytes 0 n)).2.getD (n - 1) 0 < 256)
    (hm : (n : Int) - (((env.gcry_cipher_decrypt ctx (fragment.bytes 0 n)).2.getD (n - 1) 0
        : Nat) + 1) - 20 ≤ 0
      ∨ (outl : Int) < (n : Int) - (((env.gcry_cipher_decrypt ctx
          (fragment.bytes 0 n)).2.getD (n - 1) 0 : Nat) + 1) - 20) :
    ∃ conn1, tls_process_record_data env conn fragment n out outl
      = some (int32_of_nat outl, conn1, out, outl) := by
  have hn0 : n ≠ 0 := by omega
  obtain ⟨p, hpd⟩ : ∃ p, p = (env.gcry_cipher_decrypt ctx (fragment.bytes 0 n)).2.getD (n - 1) 0 :=
    ⟨_, rfl⟩
  rw [← hpd] at hp hm
  have hcond : ¬ (int32_of_nat (size_t_of_int ((n : Int) - ((p : Int) + 1) - 20)) > 0
      ∧ size_t_of_int ((n : Int) - ((p : Int) + 1) - 20) ≤ outl) := by
    rintro ⟨c1, c2⟩
    rcases hm with hm | hm
    · -- a length that is not positive: the 64-bit value is `2^64 + m`, negative as int32_t
      by_cases hz : (n : Int) - ((p : Int) + 1) - 20 = 0
      · rw [hz] at c1
        simp [size_t_of_int, int32_of_nat] at c1
      · have e : size_t_of_int ((n : Int) - ((p : Int) + 1) - 20)
            = 2 ^ 64 - (p + 21 - n) := by
          unfold size_t_of_int
          have : ((n : Int) - ((p : Int) + 1) - 20) % 2 ^ 64
              = (n : Int) - ((p : Int) + 1) - 20 + 2 ^ 64 := by
            rw [← Int.add_emod_self, Int.emod_eq_of_lt (by omega) (by omega)]
          rw [this]
          omega
        rw [e] at c1
        unfold int32_of_nat at c1
        have hk : (2 ^ 64 - (p + 21 - n)) % 2 ^ 32 = 2 ^ 32 - (p + 21 - n) := by omega
        rw [hk] at c1
        have : ¬ (2 ^ 32 - (p + 21 - n) < 2 ^ 31) := by omega
        rw [if_neg this] at c1
        omega
    · rw [size_t_of_int_pos _ (by omega) (by omega)] at c2
      omega
  simp only [tls_process_record_data, hctx, hn0, if_false, ← hpd]
  rw [if_neg hcond]
  exact ⟨_, rfl⟩

/-- The witness of C6: 48 bytes with padding byte 3 give `m = 24`. -/
theorem tls_process_record_data_copies_witness :
    (tls_process_record_data toy_env toy_conn (Mem.ofList toy_fragment) 48
      (List.replicate 100 0) 100).map (fun r => (r.1, r.2.2.1.take 24, r.2.2.2))
      = some (24, toy_fragment.take 24, 24) := by
  rw [tls_process_record_data_copies toy_env toy_conn (Mem.ofList toy_fragment) 48
    (List.replicate 100 0) 100 _ _ 24 (by decide) (by decide) (by decide) rfl rfl (by decide)
    (by decide) (by decide) (by decide)]
  decide

/-- C7 (at the failing input): a 32-byte fragment whose padding byte is 31 has
`m = 32 - 32 - 20 = -20`; with `*outl = 100` on entry, `tls_process_record_data` returns 100
and leaves `*outl = 100` (and `*out` as it was): the reported length is the capacity, not
0. -/
theorem tls_process_record_data_reports_capacity :
    (tls_process_record_data toy_env toy_conn (Mem.ofList toy_short_fragment) 32
      (List.replicate 100 7) 100).map (fun r => (r.1, r.2.2.1, r.2.2.2))
      = some (100, List.replicate 100 7, 100) := by
  decide

/-! ## The record parser -/

/-- A record that is the last one visited: when `len` does not exceed the record length
`5 + length`, `tls_process_record` is the handling of that one record. -/
theorem tls_process_record_last (env : Env) (conn : SSLConnection) (p : Mem) (len : Nat)
    (out : List Nat) (outl : Nat) (h0 : 0 < len) (hpos : 0 < UINT16_INT (p 3) (p 4))
    (hlast : len ≤ 5 + UINT16_INT (p 3) (p 4)) :
    tls_process_record env conn p len out outl
      = tls_process_record_fragment env conn (p 0) (p.shift 5) (UINT16_INT (p 3) (p 4))
          out outl := by
  obtain ⟨k, rfl⟩ : ∃ k, len = k + 1 := ⟨len - 1, by omega⟩
  unfold tls_process_record
  rw [tls_process_record_aux]
  simp only [Nat.succ_ne_zero, if_false, hpos, gt_iff_lt, if_true, sizeof_TLSPlaintext]
  have hn : ¬ (5 + UINT16_INT (p 3) (p 4) < k + 1) := by omega
  cases hfr : tls_process_record_fragment env conn (p 0) (p.shift 5)
      (UINT16_INT (p 3) (p 4)) out outl with
  | none => rfl
  | some r =>
    obtain ⟨ret, c, o, ol⟩ := r
    cases c with
    | none => rfl
    | some c1 =>
      simp only [hn, if_false]
      by_cases hret : ret = 0
      · simp [hret]
      · simp [hret]

/-- C8 (amended): on a buffer of `len ≥ 5` bytes whose first record declares a fragment
longer than the `len - 5` bytes that follow the header, `tls_process_record` does not
check the declared length: it handles that record as if it were complete, and nothing
after it.  For `change_cipher_spec` the session ends with `encrypted = 1` and every other
field as before, and the result is the same for every memory that agrees with the buffer
below `len` (no byte at an index `≥ len` is used); for a type that is not `handshake`, not
`change_cipher_spec` and not `application_data` on an encrypted session, the session is
unchanged, again for every memory that agrees with the buffer below `len`. -/
theorem tls_process_record_truncated (env : Env) (conn : SSLConnection) (p : Mem) (len : Nat)
    (out : List Nat) (outl : Nat) (h5 : 5 ≤ len)
    (hdecl : len - 5 < UINT16_INT (p 3) (p 4)) :
    tls_process_record env conn p len out outl
      = tls_process_record_fragment env conn (p 0) (p.shift 5) (UINT16_INT (p 3) (p 4))
          out outl
    ∧ (p 0 = change_cipher_spec → ∀ q : Mem, (∀ i, i < len → q i = p i) →
        tls_process_record env conn q len out outl
          = some (0, some { conn with encrypted := 1 }, out, outl))
    ∧ (p 0 ≠ handshake → p 0 ≠ change_cipher_spec →
        (p 0 ≠ application_data ∨ conn.encrypted = 0) →
        ∀ q : Mem, (∀ i, i < len → q i = p i) →
        tls_process_record env conn q len out outl = some (0, some conn, out, outl)) := by
  have hq : ∀ q : Mem, (∀ i, i < len → q i = p i) →
      tls_process_record env conn q len out outl
        = tls_process_record_fragment env conn (p 0) (q.shift 5) (UINT16_INT (p 3) (p 4))
            out outl := by
    intro q hag
    have e0 := hag 0 (by omega)
    have e3 := hag 3 (by omega)
    have e4 := hag 4 (by omega)
    have := tls_process_record_last env conn q len out outl (by omega)
      (by rw [e3, e4]; omega) (by rw [e3, e4]; omega)
    rw [this, e0, e3, e4]
  refine ⟨hq p (fun _ _ => rfl), ?_, ?_⟩
  · intro ht q hag
    rw [hq q hag, ht]
    simp [tls_process_record_fragment, handshake, change_cipher_spec]
  · intro t1 t2 t3 q hag
    rw [hq q hag]
    unfold tls_process_record_fragment
    rw [if_neg t1, if_neg t2]
    rcases t3 with t3 | t3
    · rw [if_neg t3]
    · by_cases ha : p 0 = application_data
      · rw [if_pos ha]; simp [t3]
      · rw [if_neg ha]

/-- The witness of C8 (amended): a `change_cipher_spec` record that declares 5 bytes in a
buffer of 5. -/
theorem tls_process_record_truncated_witness :
    tls_process_record toy_env toy_new_conn (Mem.ofList [20, 3, 1, 0, 5]) 5 [] 0
      = some (0, some { toy_new_conn with encrypted := 1 }, [], 0) :=
  (tls_process_record_truncated toy_env toy_new_conn (Mem.ofList [20, 3, 1, 0, 5]) 5 [] 0
    (by decide) (by decide)).2.1 (by decide) _ (fun _ _ => rfl)

/-- C8 (counterexample): a `change_cipher_spec` record that declares 5 bytes with none
left in the buffer changes the session (`encrypted` goes from 0 to 1); and on a 9-byte
buffer holding a `handshake` record that declares 42 bytes, two memories that agree on
the 9 bytes and differ after them give different results: bytes at indices `≥ len` are
read. -/
theorem tls_process_record_truncated_counterexample :
    (5 - 5 < UINT16_INT 0 5
      ∧ toy_new_conn.encrypted = 0
      ∧ tls_process_record toy_env toy_new_conn (Mem.ofList [20, 3, 1, 0, 5]) 5 [] 0
        = some (0, some { toy_new_conn with encrypted := 1 }, [], 0)
      ∧ ({ toy_new_conn with encrypted := 1 } : SSLConnection) ≠ toy_new_conn)
    ∧ (9 - 5 < UINT16_INT 0 42
      ∧ (∀ i, i < 9 →
          Mem.ofList ([22, 3, 1, 0, 42, 1, 0, 0, 38, 3, 1] ++ List.replicate 32 0) i
            = Mem.ofList ([22, 3, 1, 0, 42, 1, 0, 0, 38, 3, 1] ++ List.replicate 32 9) i)
      ∧ tls_process_record toy_env toy_new_conn
          (Mem.ofList ([22, 3, 1, 0, 42, 1, 0, 0, 38, 3, 1] ++ List.replicate 32 0)) 9 [] 0
        ≠ tls_process_record toy_env toy_new_conn
          (Mem.ofList ([22, 3, 1, 0, 42, 1, 0, 0, 38, 3, 1] ++ List.replicate 32 9)) 9 [] 0) := by
  decide

theorem Mem.bytes_five (p : Mem) (k a b c d e : Nat) (h : p.bytes k 5 = [a, b, c, d, e]) :
    p k = a ∧ p (k + 1) = b ∧ p (k + 2) = c ∧ p (k + 3) = d ∧ p (k + 4) = e := by
  simpa [Mem.bytes, List.range_succ] using h

theorem tls_process_record_data_congr (env : Env) (conn : SSLConnection) (f g : Mem)
    (len : Nat) (out : List Nat) (outl : Nat) (h : f.bytes 0 len = g.bytes 0 len) :
    tls_process_record_data env conn f len out outl
      = tls_process_record_data env conn g len out outl := by
  unfold tls_process_record_data
  rw [h]

/-- C9: on a session (with `encrypted = 0`, or any other value) and a buffer made of a
`change_cipher_spec` record with a non-empty body followed at once by an
`application_data` record with the fragment `F` of `n ≥ 1` bytes, `tls_process_record`
sets `encrypted = 1` and then handles the second record with it (first equation), so that
the whole call is one call of `tls_process_record_data` on `F` with length `n`, made on
the session with `encrypted = 1`, and returns 0 (second equation). -/
theorem tls_process_record_ccs_then_data (env : Env) (conn : SSLConnection) (p : Mem)
    (v1 v2 v3 v4 : Nat) (body F : List Nat) (out : List Nat) (outl : Nat)
    (hb1 : 1 ≤ body.length) (hb2 : body.length < 65536)
    (hF1 : 1 ≤ F.length) (hF2 : F.length < 65536)
    (hp : p.bytes 0 (5 + body.length + (5 + F.length))
      = [change_cipher_spec, v1, v2, body.length / 256, body.length % 256] ++ body
        ++ ([application_data, v3, v4, F.length / 256, F.length % 256] ++ F)) :
    tls_process_record env conn p (5 + body.length + (5 + F.length)) out outl
      = tls_process_record env { conn with encrypted := 1 } (p.shift (5 + body.length))
          (5 + F.length) out outl
    ∧ tls_process_record env conn p (5 + body.length + (5 + F.length)) out outl
      = (tls_process_record_data env { conn with encrypted := 1 } (Mem.ofList F) F.length
          out outl).map (fun r => (0, some r.2.1, r.2.2.1, r.2.2.2)) := by
  -- the two headers and the second fragment, read off the buffer
  have hh1 : p.bytes 0 5 = [change_cipher_spec, v1, v2, body.length / 256, body.length % 256] := by
    have := congrArg (List.take 5) hp
    rw [Mem.bytes_take _ _ _ _ (by omega)] at this
    rw [this]; simp
  have hrest : p.bytes (5 + body.length) (5 + F.length)
      = [application_data, v3, v4, F.length / 256, F.length % 256] ++ F := by
    have := congrArg (List.drop (5 + body.length)) hp
    rw [Mem.bytes_drop, Nat.zero_add, Nat.add_sub_cancel_left] at this
    rw [this]
    exact List.drop_left' (by simp; omega)
  have hh2 : p.bytes (5 + body.length) 5
      = [application_data, v3, v4, F.length / 256, F.length % 256] := by
    have := congrArg (List.take 5) hrest
    rw [Mem.bytes_take _ _ _ _ (by omega)] at this
    rw [this]; simp
  have hF : p.bytes (5 + body.length + 5) F.length = F := by
    have := congrArg (List.drop 5) hrest
    rw [Mem.bytes_drop, Nat.add_sub_cancel_left] at this
    rw [this]; simp
  obtain ⟨a0, _, _, a3, a4⟩ := Mem.bytes_five p 0 _ _ _ _ _ hh1
  obtain ⟨b0, _, _, b3, b4⟩ := Mem.bytes_five p (5 + body.length) _ _ _ _ _ hh2
  simp only [Nat.zero_add] at a0 a3 a4
  have hl1 : UINT16_INT (p 3) (p 4) = body.length := by
    rw [a3, a4]; unfold UINT16_INT; omega
  have hl2 : UINT16_INT ((p.shift (5 + body.length)) 3) ((p.shift (5 + body.length)) 4)
      = F.length := by
    simp only [Mem.shift]; rw [b3, b4]; unfold UINT16_INT; omega
  -- the first record
  have step1 : tls_process_record env conn p (5 + body.length + (5 + F.length)) out outl
      = tls_process_record env { conn with encrypted := 1 } (p.shift (5 + body.length))
          (5 + F.length) out outl := by
    obtain ⟨k, hk⟩ : ∃ k, 5 + body.length + (5 + F.length) = k + 1 :=
      ⟨5 + body.length + (5 + F.length) - 1, by omega⟩
    unfold tls_process_record
    rw [hk, tls_process_record_aux]
    have hgt : 5 + body.length < k + 1 := by omega
    have hsub : k + 1 - (5 + body.length) = 5 + F.length := by omega
    simp only [Nat.succ_ne_zero, if_false, hl1, gt_iff_lt, sizeof_TLSPlaintext, a0,
      tls_process_record_fragment, handshake, change_cipher_spec]
    simp only [show 0 < body.length by omega, if_true, show ¬ (20 = 22) by decide, if_false,
      ne_eq, not_true_eq_false, hgt, hsub]
    -- fuel `k` or fuel `5 + F.length`: the remainder is one record
    obtain ⟨j, hj⟩ : ∃ j, 5 + F.length = j + 1 := ⟨5 + F.length - 1, by omega⟩
    obtain ⟨k', hk'⟩ : ∃ k', k = k' + 1 := ⟨k - 1, by omega⟩
    rw [hk', hj, tls_process_record_aux, tls_process_record_aux]
    rw [← hj]
    simp only [hl2, sizeof_TLSPlaintext, gt_iff_lt, Nat.lt_irrefl, if_false]
  refine ⟨step1, ?_⟩
  rw [step1, tls_process_record_last env _ _ _ out outl (by omega) (by rw [hl2]; omega)
    (by rw [hl2]), hl2]
  have b0' : (p.shift (5 + body.length)) 0 = application_data := by
    simp only [Mem.shift]; exact b0
  have hcongr : ((p.shift (5 + body.length)).shift 5).bytes 0 F.length
      = (Mem.ofList F).bytes 0 F.length := by
    rw [Mem.bytes_shift, Mem.bytes_shift, Mem.bytes_ofList, Nat.add_zero, hF]
  rw [b0']
  simp only [tls_process_record_fragment, handshake, change_cipher_spec, application_data,
    show ¬ (23 = 22) by decide, show ¬ (23 = 20) by decide, if_false, if_true, ne_eq,
    show ¬ ((1 : Nat) = 0) by decide, not_false_eq_true]
  rw [tls_process_record_data_congr env _ _ _ _ out outl hcongr]
  cases tls_process_record_data env { conn with encrypted := 1 } (Mem.ofList F) F.length
    out outl <;> rfl

/-- The witness of C9: a 1-byte `change_cipher_spec` record and a 48-byte
`application_data` record, on a session with `encrypted = 0`. -/
theorem tls_process_record_ccs_then_data_witness :
    toy_conn.encrypted = 0
    ∧ tls_process_record toy_env toy_conn
        (Mem.ofList ([20, 3, 1, 0, 1] ++ [1] ++ ([23, 3, 1, 0, 48] ++ toy_fragment)))
        (5 + [1].length + (5 + toy_fragment.length)) (List.replicate 100 0) 100
      = (tls_process_record_data toy_env { toy_conn with encrypted := 1 }
          (Mem.ofList toy_fragment) toy_fragment.length (List.replicate 100 0) 100).map
          (fun r => (0, some r.2.1, r.2.2.1, r.2.2.2)) :=
  ⟨by decide,
    (tls_process_record_ccs_then_data toy_env toy_conn
      (Mem.ofList ([20, 3, 1, 0, 1] ++ [1] ++ ([23, 3, 1, 0, 48] ++ toy_fragment)))
      3 1 3 1 [1] toy_fragment (List.replicate 100 0) 100
      (by decide) (by decide) (by decide) (by decide) (by decide)).2⟩

theorem tls_process_record_aux_fuel (env : Env) :
    ∀ (fuel1 fuel2 : Nat) (conn : SSLConnection) (p : Mem) (len : Nat) (out : List Nat)
      (outl : Nat), len ≤ fuel1 → len ≤ fuel2 →
      tls_process_record_aux env fuel1 conn p len out outl
        = tls_process_record_aux env fuel2 conn p len out outl := by
  intro fuel1
  induction fuel1 with
  | zero =>
    intro fuel2 conn p len out outl h1 _
    have h0 : len = 0 := by omega
    subst h0
    cases fuel2 <;> simp [tls_process_record_aux]
  | succ f1 ih =>
    intro fuel2 conn p len out outl h1 h2
    by_cases h0 : len = 0
    · subst h0
      cases fuel2 <;> simp [tls_process_record_aux]
    · obtain ⟨f2, rfl⟩ : ∃ f2, fuel2 = f2 + 1 := ⟨fuel2 - 1, by omega⟩
      rw [tls_process_record_aux, tls_process_record_aux]
      simp only [h0, if_false, sizeof_TLSPlaintext]
      split
      · rfl
      · rfl
      · split
        · rfl
        · split
          · exact ih f2 _ _ _ _ _ (by omega) (by omega)
          · rfl

/-! ## The registry -/

theorem tls_connection_find_none (connections : List SSLConnection) (addr port : Nat)
    (h : ∀ x ∈ connections, tls_connection_dir x addr port = -1) :
    tls_connection_find connections addr port = none := by
  induction connections with
  | nil => rfl
  | cons c rest ih =>
    have hc := h c (List.mem_cons_self _ _)
    simp only [tls_connection_find, hc, ne_eq, not_true_eq_false, if_false]
    exact ih (fun x hx => h x (List.mem_cons_of_mem _ hx))

/-- C10: after a successful `tls_connection_create` for the client endpoint `c` and the
server endpoint `s`, `c ≠ s`, on any registry: `tls_connection_find(c)` is the new session
and `tls_connection_dir` gives 0 for it, `tls_connection_find(s)` is the new session and
`tls_connection_dir` gives 1, and for an endpoint that is neither the client nor the
server endpoint of any session of the registry `tls_connection_find` finds nothing and
`tls_connection_dir` is -1 on every session. -/
theorem tls_connection_create_find (env : Env) (connections : List SSLConnection)
    (caddr cport saddr sport : Nat) (conn : SSLConnection)
    (hne : (caddr, cport) ≠ (saddr, sport))
    (hc : (tls_connection_create env connections caddr cport saddr sport).1 = some conn) :
    tls_connection_find (tls_connection_create env connections caddr cport saddr sport).2
        caddr cport = some conn
    ∧ tls_connection_dir conn caddr cport = 0
    ∧ tls_connection_find (tls_connection_create env connections caddr cport saddr sport).2
        saddr sport = some conn
    ∧ tls_connection_dir conn saddr sport = 1
    ∧ ∀ eaddr eport,
        (∀ x ∈ (tls_connection_create env connections caddr cport saddr sport).2,
          (x.client_addr, x.client_port) ≠ (eaddr, eport)
          ∧ (x.server_addr, x.server_port) ≠ (eaddr, eport)) →
        tls_connection_find (tls_connection_create env connections caddr cport saddr sport).2
          eaddr eport = none
        ∧ ∀ x ∈ (tls_connection_create env connections caddr cport saddr sport).2,
          tls_connection_dir x eaddr eport = -1 := by
  have hdir : ∀ (x : SSLConnection) (eaddr eport : Nat),
      (x.client_addr, x.client_port) ≠ (eaddr, eport) →
      (x.server_addr, x.server_port) ≠ (eaddr, eport) →
      tls_connection_dir x eaddr eport = -1 := by
    intro x eaddr eport h1 h2
    simp only [ne_eq, Prod.mk.injEq] at h1 h2
    simp [tls_connection_dir, h1, h2]
  have hlast : ∀ eaddr eport,
      (∀ x ∈ (tls_connection_create env connections caddr cport saddr sport).2,
        (x.client_addr, x.client_port) ≠ (eaddr, eport)
        ∧ (x.server_addr, x.server_port) ≠ (eaddr, eport)) →
      tls_connection_find (tls_connection_create env connections caddr cport saddr sport).2
        eaddr eport = none
      ∧ ∀ x ∈ (tls_connection_create env connections caddr cport saddr sport).2,
        tls_connection_dir x eaddr eport = -1 := by
    intro eaddr eport h
    have h' := fun x hx => hdir x eaddr eport (h x hx).1 (h x hx).2
    exact ⟨tls_connection_find_none _ _ _ h', h'⟩
  refine ⟨?_, ?_, ?_, ?_, hlast⟩ <;> clear hlast
  all_goals
    simp only [tls_connection_create] at hc
    try simp only [tls_connection_create]
    cases h1 : env.SSL_CTX_new_ok <;> cases h2 : env.SSL_new_ok <;>
      cases h3 : env.keyfile <;> simp [h1, h2, h3] at hc ⊢
    subst hc
    simp only [ne_eq, Prod.mk.injEq] at hne
    simp [tls_connection_find, tls_connection_dir, hne]

/-- The witness of C10: the first session of an empty registry. -/
theorem tls_connection_create_find_witness :
    (10, 5060) ≠ (20, 5061)
    ∧ tls_connection_find (tls_connection_create toy_env [] 10 5060 20 5061).2 10 5060
      = (tls_connection_create toy_env [] 10 5060 20 5061).1
    ∧ tls_connection_find (tls_connection_create toy_env [] 10 5060 20 5061).2 20 5061
      = (tls_connection_create toy_env [] 10 5060 20 5061).1 :=
  have h := tls_connection_create_find toy_env [] 10 5060 20 5061 _ (by decide) rfl
  ⟨by decide, h.1, h.2.2.1⟩

/-! ## The TCP state tracker: `tls_process_segment` -/

theorem syn_test (f : Nat) : f &&& TH_SYN &&& int_not TH_ACK = f &&& TH_SYN := by
  rw [Nat.land_assoc]
  have : TH_SYN &&& int_not TH_ACK = TH_SYN := by decide
  rw [this]

theorem ack_test (f : Nat) : f &&& int_not TH_SYN &&& TH_ACK = f &&& TH_ACK := by
  rw [Nat.land_assoc]
  have : int_not TH_SYN &&& TH_ACK = TH_ACK := by decide
  rw [this]

theorem tls_connection_find_at_none (connections : List SSLConnection) (addr port : Nat) :
    tls_connection_find_at connections addr port = none
      ↔ ∀ c ∈ connections, tls_connection_dir c addr port = -1 := by
  induction connections with
  | nil => simp [tls_connection_find_at]
  | cons c rest ih =>
    by_cases h : tls_connection_dir c addr port = -1
    · simp [tls_connection_find_at, h, ih]
    · simp [tls_connection_find_at, h]

theorem tls_connection_find_at_some (connections : List SSLConnection) (addr port : Nat) :
    ∀ (i : Nat) (conn : SSLConnection),
      tls_connection_find_at connections addr port = some (i, conn) →
      connections[i]? = some conn ∧ tls_connection_dir conn addr port ≠ -1 := by
  induction connections with
  | nil => intro i conn h; simp [tls_connection_find_at] at h
  | cons c rest ih =>
    intro i conn h
    by_cases hd : tls_connection_dir c addr port = -1
    · simp only [tls_connection_find_at, hd, ne_eq, not_true_eq_false, if_false,
        Option.map_eq_some'] at h
      obtain ⟨⟨j, c'⟩, hj, he⟩ := h
      simp only [Prod.mk.injEq] at he
      obtain ⟨rfl, rfl⟩ := he
      have := ih j c' hj
      simpa using this
    · simp only [tls_connection_find_at, hd, ne_eq, not_false_eq_true, if_true,
        Option.some.injEq, Prod.mk.injEq] at h
      obtain ⟨rfl, rfl⟩ := h
      exact ⟨by simp, hd⟩

theorem tls_connection_find_eq_at (connections : List SSLConnection) (addr port : Nat) :
    tls_connection_find connections addr port
      = (tls_connection_find_at connections addr port).map (fun r => r.2) := by
  induction connections with
  | nil => rfl
  | cons c rest ih =>
    by_cases hd : tls_connection_dir c addr port = -1
    · simp only [tls_connection_find, tls_connection_find_at, hd, ne_eq, not_true_eq_false,
        if_false, ih, Option.map_map]
      rfl
    · simp [tls_connection_find, tls_connection_find_at, hd]

/-- C12: for the session `tls_process_segment` locates for the source endpoint of the
segment (at position `i` of the list): in state SYN a segment with SYN and ACK both set
makes the state SYN_ACK, in state SYN_ACK a pure ACK (ACK set, SYN clear) makes it
ESTABLISHED; in both cases the session stays at its place in the list, its `direction` is
`tls_connection_dir` of the source endpoint, and nothing else changes. -/
theorem tls_process_segment_handshake_transitions (env : Env)
    (connections : List SSLConnection) (packet : capture_packet_t) (th_flags i : Nat)
    (conn : SSLConnection)
    (hfind : tls_connection_find_at connections packet.ip_src packet.sport = some (i, conn)) :
    (conn.state = .TCP_STATE_SYN → th_flags &&& TH_SYN ≠ 0 → th_flags &&& TH_ACK ≠ 0 →
      tls_process_segment env connections packet th_flags
        = some (0, connections.set i
            { conn with
              direction := tls_connection_dir conn packet.ip_src packet.sport
              state := .TCP_STATE_SYN_ACK }, packet))
    ∧ (conn.state = .TCP_STATE_SYN_ACK → th_flags &&& TH_ACK ≠ 0 → th_flags &&& TH_SYN = 0 →
      tls_process_segment env connections packet th_flags
        = some (0, connections.set i
            { conn with
              direction := tls_connection_dir conn packet.ip_src packet.sport
              state := .TCP_STATE_ESTABLISHED }, packet)) := by
  constructor
  · intro hs h1 _
    simp only [tls_process_segment, hfind, hs, syn_test, ne_eq, h1, not_false_eq_true, if_true]
  · intro hs h1 _
    simp only [tls_process_segment, hfind, hs, ack_test, ne_eq, h1, not_false_eq_true, if_true]

/-- The witness of C12: a SYN/ACK from the server on a session in state SYN, and a pure ACK
from the client on a session in state SYN_ACK. -/
theorem tls_process_segment_handshake_transitions_witness :
    (tls_process_segment toy_env [toy_new_conn] (toy_packet 20 5061 10 5060 []) 0x12).map
        (fun r => r.2.1)
      = some [{ toy_new_conn with direction := 1, state := .TCP_STATE_SYN_ACK }]
    ∧ (tls_process_segment toy_env [toy_syn_ack_conn]
        (toy_packet 10 5060 20 5061 []) 0x10).map (fun r => r.2.1)
      = some [{ toy_new_conn with direction := 0, state := .TCP_STATE_ESTABLISHED }] := by
  constructor
  · rw [(tls_process_segment_handshake_transitions toy_env [toy_new_conn]
      (toy_packet 20 5061 10 5060 []) 0x12 0 toy_new_conn (by decide)).1
      (by decide) (by decide) (by decide)]
    decide
  · rw [(tls_process_segment_handshake_transitions toy_env [toy_syn_ack_conn]
      (toy_packet 10 5060 20 5061 []) 0x10 0 toy_syn_ack_conn (by decide)).2
      (by decide) (by decide) (by decide)]
    decide

/-- What `tls_process_segment` does with a located session in state FIN or CLOSED: the
session is unlinked, whatever the flags. -/
theorem tls_process_segment_fin_state (env : Env) (connections : List SSLConnection)
    (packet : capture_packet_t) (th_flags i : Nat) (conn : SSLConnection)
    (hfind : tls_connection_find_at connections packet.ip_src packet.sport = some (i, conn))
    (hs : conn.state = .TCP_STATE_FIN ∨ conn.state = .TCP_STATE_CLOSED) :
    tls_process_segment env connections packet th_flags
      = some (0, connections.eraseIdx i, packet) := by
  have he : ∀ c : SSLConnection, (connections.set i c).eraseIdx i = connections.eraseIdx i := by
    intro c
    apply List.ext_getElem?
    intro n
    simp only [List.getElem?_eraseIdx, List.getElem?_set]
    split <;> split <;> simp_all
  rcases hs with hs | hs <;>
    simp only [tls_process_segment, hfind, hs, tls_connection_destroy, he]

/-- What `tls_process_segment` does with a located session in state SYN or SYN_ACK: only
`direction` and `state` of that session can change, no record is processed and the packet
is returned as it came, whatever the flags and the payload. -/
theorem tls_process_segment_syn_states (env : Env) (connections : List SSLConnection)
    (packet : capture_packet_t) (th_flags i : Nat) (conn : SSLConnection)
    (hfind : tls_connection_find_at connections packet.ip_src packet.sport = some (i, conn))
    (hs : conn.state = .TCP_STATE_SYN ∨ conn.state = .TCP_STATE_SYN_ACK) :
    tls_process_segment env connections packet th_flags
      = some (0, connections.set i
          { conn with
            direction := tls_connection_dir conn packet.ip_src packet.sport
            state :=
              if conn.state = .TCP_STATE_SYN then
                (if th_flags &&& TH_SYN ≠ 0 then .TCP_STATE_SYN_ACK else .TCP_STATE_SYN)
              else
                (if th_flags &&& TH_ACK ≠ 0 then .TCP_STATE_ESTABLISHED
                  else .TCP_STATE_SYN_ACK) }, packet) := by
  rcases hs with hs | hs
  · by_cases h : th_flags &&& TH_SYN = 0
    · simp [tls_process_segment, hfind, hs, syn_test, h]
    · simp [tls_process_segment, hfind, hs, syn_test, h]
  · by_cases h : th_flags &&& TH_ACK = 0
    · simp [tls_process_segment, hfind, hs, ack_test, h]
    · simp [tls_process_segment, hfind, hs, ack_test, h]

/-- What `tls_process_segment` does when no session matches the source endpoint: it calls
`tls_connection_create` as soon as SYN is set, with ACK set or clear. -/
theorem tls_process_segment_unmatched (env : Env) (connections : List SSLConnection)
    (packet : capture_packet_t) (th_flags : Nat)
    (hfind : tls_connection_find_at connections packet.ip_src packet.sport = none) :
    tls_process_segment env connections packet th_flags
      = some (0,
          (if th_flags &&& TH_SYN ≠ 0 then
            (tls_connection_create env connections packet.ip_src packet.sport packet.ip_dst
              packet.dport).2
          else connections), packet) := by
  by_cases h : th_flags &&& TH_SYN = 0
  · simp [tls_process_segment, hfind, syn_test, h]
  · simp [tls_process_segment, hfind, syn_test, h]

set_option maxRecDepth 100000 in
/-- C11 (at the failing input): segments with FIN set, sent from the client endpoint of the
located session.  In state ESTABLISHED (flags FIN and ACK, empty payload) and in state SYN
(flag FIN) the list is left as it was, and in state SYN_ACK (flags FIN and ACK) the session
goes to ESTABLISHED: in none of them is the session removed. -/
theorem tls_process_segment_fin_flag_keeps_session :
    ((TH_FIN ||| TH_ACK) &&& TH_FIN ≠ 0
      ∧ (tls_process_segment toy_env [toy_conn] (toy_packet 10 5060 20 5061 [])
          (TH_FIN ||| TH_ACK)).map (fun r => r.2.1) = some [toy_conn])
    ∧ (TH_FIN &&& TH_FIN ≠ 0
      ∧ (tls_process_segment toy_env [toy_new_conn] (toy_packet 10 5060 20 5061 [])
          TH_FIN).map (fun r => r.2.1) = some [toy_new_conn])
    ∧ (tls_process_segment toy_env [toy_syn_ack_conn] (toy_packet 10 5060 20 5061 [])
          (TH_FIN ||| TH_ACK)).map (fun r => r.2.1)
        = some [{ toy_syn_ack_conn with state := .TCP_STATE_ESTABLISHED }] := by
  decide

set_option maxRecDepth 100000 in
/-- C13 (at the failing input): an empty registry and a segment from 20:5061 to 10:5060
with SYN and ACK both set.  `tls_process_segment` adds a session, with the source
20:5061 as its client endpoint. -/
theorem tls_process_segment_syn_ack_creates_session :
    (TH_SYN ||| TH_ACK) &&& TH_SYN ≠ 0 ∧ (TH_SYN ||| TH_ACK) &&& TH_ACK ≠ 0
    ∧ (tls_process_segment toy_env [] (toy_packet 20 5061 10 5060 [])
        (TH_SYN ||| TH_ACK)).map (fun r => r.2.1.map SSLConnection.identity)
      = some [(20, 5061, 10, 5060)] := by
  decide

set_option maxRecDepth 100000 in
/-- C19 (at the failing input): a session in state SYN_ACK and a segment from its server
endpoint with SYN and ACK both set (SYN is not clear).  The state becomes ESTABLISHED. -/
theorem tls_process_segment_syn_ack_state_accepts_syn_ack :
    (TH_SYN ||| TH_ACK) &&& TH_SYN ≠ 0 ∧ (TH_SYN ||| TH_ACK) &&& TH_ACK ≠ 0
    ∧ (tls_process_segment toy_env [toy_syn_ack_conn] (toy_packet 20 5061 10 5060 [])
        (TH_SYN ||| TH_ACK)).map (fun r => r.2.1.map (fun c => c.state))
      = some [.TCP_STATE_ESTABLISHED] := by
  decide

/-! ## The handshake on a registered session -/

theorem not_mem_eraseIdx_of_nodup (l : List SSLConnection) :
    ∀ (i : Nat) (a : SSLConnection), l.Nodup → l[i]? = some a → a ∉ l.eraseIdx i := by
  induction l with
  | nil => intro i a _ h; simp at h
  | cons x xs ih =>
    intro i a hn h
    rw [List.nodup_cons] at hn
    cases i with
    | zero =>
      simp only [List.getElem?_cons_zero, Option.some.injEq] at h
      subst h
      simpa using hn.1
    | succ j =>
      simp only [List.getElem?_cons_succ] at h
      simp only [List.eraseIdx_cons_succ, List.mem_cons, not_or]
      refine ⟨?_, ih j a hn.2 h⟩
      rintro rfl
      exact hn.1 (List.getElem?_mem h)

theorem tls_connection_find_mem (connections : List SSLConnection) (addr port : Nat)
    (c : SSLConnection) (h : tls_connection_find connections addr port = some c) :
    c ∈ connections := by
  induction connections with
  | nil => simp [tls_connection_find] at h
  | cons x xs ih =>
    by_cases hd : tls_connection_dir x addr port = -1
    · simp only [tls_connection_find, hd, ne_eq, not_true_eq_false, if_false] at h
      exact List.mem_cons_of_mem _ (ih h)
    · simp only [tls_connection_find, hd, ne_eq, not_false_eq_true, if_true,
        Option.some.injEq] at h
      subst h
      exact List.mem_cons_self _ _

/-- C15: for the session at position `i` of the registry and a `client_hello` fragment with
a non-zero body length, `tls_process_record_handshake` returns 1 and unlinks the session
exactly when the advertised version (body bytes 0 and 1) is not (3, 1); for (3, 1) it
returns 0, the session stays at its place and only its `client_random` changes, to body
bytes [2, 34).  After the removal the list is one shorter and, in a registry without
two equal sessions, no `tls_connection_find` returns the session. -/
theorem tls_client_hello_version_check (env : Env) (connections : List SSLConnection)
    (i : Nat) (conn : SSLConnection) (fragment : Mem)
    (hi : connections[i]? = some conn) (ht : fragment 0 = client_hello)
    (hl : 0 < UINT24_INT (fragment 1) (fragment 2) (fragment 3)) :
    tls_process_record_handshake_at env connections i fragment
      = (if fragment 4 = 3 ∧ fragment 5 = 1 then
          some (0, connections.set i { conn with client_random := fragment.bytes 6 32 })
        else some (1, connections.eraseIdx i))
    ∧ (connections.eraseIdx i).length + 1 = connections.length
    ∧ (connections.Nodup → ∀ addr port,
        tls_connection_find (connections.eraseIdx i) addr port ≠ some conn) := by
  have hlt : i < connections.length := by
    rcases Nat.lt_or_ge i connections.length with h | h
    · exact h
    · rw [List.getElem?_eq_none h] at hi; simp at hi
  refine ⟨?_, List.length_eraseIdx_add_one hlt, ?_⟩
  · unfold tls_process_record_handshake_at tls_process_record_handshake
    simp only [hi, hl, gt_iff_lt, if_true, ht, client_hello, hello_request, sizeof_Handshake,
      sizeof_Random, Mem.bytes_shift, Mem.shift]
    simp only [show ¬ (1 = 0) by decide, if_false, if_true, Nat.add_zero]
    by_cases hv : fragment 4 = 3 ∧ fragment 5 = 1
    · simp [hv, registry_after]
    · simp [hv, registry_after, tls_connection_destroy]
  · intro hn addr port hfind
    exact not_mem_eraseIdx_of_nodup connections i conn hn hi
      (tls_connection_find_mem _ _ _ _ hfind)

/-- C14: for the session at position `i` of the registry and a `server_hello` fragment with
a non-zero body length: the session gets body bytes [2, 34) as `server_random` and the two
bytes at body offset `35 + session_id_length` as `cipher_suite`; for the code (0x00,0x35)
or (0x00,0x2F) `tls_process_record_handshake` returns 0 and the session stays at its place
with the algorithm selected; for every other code (such as (0x00,0x99)) it returns 1 and
the session is unlinked: the list is one shorter and, in a registry without two equal
sessions, no `tls_connection_find` returns the session. -/
theorem tls_server_hello_cipher_check (env : Env) (connections : List SSLConnection)
    (i : Nat) (conn : SSLConnection) (fragment : Mem)
    (hi : connections[i]? = some conn) (ht : fragment 0 = server_hello)
    (hl : 0 < UINT24_INT (fragment 1) (fragment 2) (fragment 3)) :
    tls_process_record_handshake_at env connections i fragment
      = (if fragment (39 + fragment 38) = 0x00 ∧ fragment (40 + fragment 38) = 0x35 then
          some (0, connections.set i
            { conn with
              server_random := fragment.bytes 6 32
              cipher_suite :=
                { cs1 := fragment (39 + fragment 38), cs2 := fragment (40 + fragment 38) }
              ciph := GCRY_CIPHER_AES256 })
        else if fragment (39 + fragment 38) = 0x00 ∧ fragment (40 + fragment 38) = 0x2F then
          some (0, connections.set i
            { conn with
              server_random := fragment.bytes 6 32
              cipher_suite :=
                { cs1 := fragment (39 + fragment 38), cs2 := fragment (40 + fragment 38) }
              ciph := GCRY_CIPHER_AES })
        else some (1, connections.eraseIdx i))
    ∧ (connections.eraseIdx i).length + 1 = connections.length
    ∧ (connections.Nodup → ∀ addr port,
        tls_connection_find (connections.eraseIdx i) addr port ≠ some conn) := by
  have hlt : i < connections.length := by
    rcases Nat.lt_or_ge i connections.length with h | h
    · exact h
    · rw [List.getElem?_eq_none h] at hi; simp at hi
  refine ⟨?_, List.length_eraseIdx_add_one hlt, ?_⟩
  · unfold tls_process_record_handshake_at tls_process_record_handshake
    simp only [hi, hl, gt_iff_lt, if_true, ht, client_hello, hello_request, server_hello,
      sizeof_Handshake, sizeof_Random, sizeof_ServerHello, Mem.bytes_shift, Mem.shift]
    simp only [show ¬ (2 = 0) by decide, show ¬ (2 = 1) by decide, if_false, if_true]
    have e0 : fragment (4 + 34) = fragment 38 := rfl
    have e1 : 4 + (35 + fragment 38) = 39 + fragment 38 := by omega
    have e2 : 4 + (35 + fragment 38 + 1) = 40 + fragment 38 := by omega
    rw [e0, e1, e2]
    unfold tls_connection_load_cipher
    simp only [TLS_RSA_WITH_AES_256_CBC_SHA, TLS_RSA_WITH_AES_128_CBC_SHA]
    by_cases h1 : fragment (39 + fragment 38) = 0
    · by_cases h2 : fragment (40 + fragment 38) = 0x35
      · simp [h1, h2, registry_after]
      · by_cases h3 : fragment (40 + fragment 38) = 0x2F
        · simp [h1, h3, registry_after]
        · simp [h1, h2, h3, registry_after, tls_connection_destroy]
    · simp [h1, registry_after, tls_connection_destroy]
  · intro hn addr port hfind
    exact not_mem_eraseIdx_of_nodup connections i conn hn hi
      (tls_connection_find_mem _ _ _ _ hfind)

/-! ## What the record functions keep of a session -/

/-- What `tls_process_record_data` keeps of the session: everything but the two handles. -/
theorem tls_process_record_data_frame (env : Env) (conn : SSLConnection) (fragment : Mem)
    (len : Nat) (out : List Nat) (outl : Nat) (r : Int × SSLConnection × List Nat × Nat)
    (h : tls_process_record_data env conn fragment len out outl = some r) :
    r.2.1.identity = conn.identity ∧ r.2.1.encrypted = conn.encrypted
    ∧ r.2.1.state = conn.state ∧ r.2.1.cipher_suite = conn.cipher_suite
    ∧ r.2.1.master_secret = conn.master_secret ∧ r.2.1.key_material = conn.key_material := by
  unfold tls_process_record_data at h
  split at h
  · simp at h
  · split at h
    · simp at h
    · simp only at h
      split at h
      · split at h
        · simp at h
        · simp only [Option.some.injEq] at h
          subst h
          by_cases hd : conn.direction = 0 <;> simp [hd, SSLConnection.identity]
      · simp only [Option.some.injEq] at h
        subst h
        by_cases hd : conn.direction = 0 <;> simp [hd, SSLConnection.identity]

/-- What the `client_key_exchange` case keeps of the session. -/
theorem tls_process_client_key_exchange_frame (env : Env) (conn : SSLConnection) (body : Mem)
    (ret : Int) (conn1 : SSLConnection)
    (h : tls_process_client_key_exchange env conn body = some (ret, some conn1)) :
    conn1.identity = conn.identity ∧ conn1.encrypted = conn.encrypted
    ∧ conn1.state = conn.state ∧ conn1.cipher_suite = conn.cipher_suite := by
  unfold tls_process_client_key_exchange at h
  simp only at h
  split at h
  · simp at h
  · split at h
    · simp at h
    · split at h
      · simp at h
      · split at h
        · simp at h
        · split at h
          · simp at h
          · simp only [Option.some.injEq, Prod.mk.injEq] at h
            obtain ⟨_, h⟩ := h
            subst h
            simp [SSLConnection.identity]

/-- What `tls_process_record_handshake` keeps of a session it does not destroy: the
identity tuple, `encrypted` and `state`. -/
theorem tls_process_record_handshake_frame (env : Env) (conn : SSLConnection) (fragment : Mem)
    (ret : Int) (conn1 : SSLConnection)
    (h : tls_process_record_handshake env conn fragment = some (ret, some conn1)) :
    conn1.identity = conn.identity ∧ conn1.encrypted = conn.encrypted
    ∧ conn1.state = conn.state := by
  unfold tls_process_record_handshake at h
  simp only at h
  split at h
  · split at h
    · simp only [Option.some.injEq, Prod.mk.injEq] at h
      obtain ⟨_, h⟩ := h; subst h; simp
    · split at h
      · split at h
        · simp at h
        · simp only [Option.some.injEq, Prod.mk.injEq] at h
          obtain ⟨_, h⟩ := h; subst h; simp [SSLConnection.identity]
      · split at h
        · split at h
          · simp at h
          · rename_i hr
            simp only [Option.some.injEq, Prod.mk.injEq] at h
            obtain ⟨_, h⟩ := h
            have := (tls_connection_load_cipher_ok _ (not_not.mp hr)).2
            rw [h] at this
            rw [this]
            simp [SSLConnection.identity]
        · split at h
          · simp only [Option.some.injEq, Prod.mk.injEq] at h
            obtain ⟨_, h⟩ := h; subst h; simp
          · split at h
            · have := tls_process_client_key_exchange_frame env conn _ ret conn1 h
              exact ⟨this.1, this.2.1, this.2.2.1⟩
            · split at h
              · simp only [Option.some.injEq, Prod.mk.injEq] at h
                obtain ⟨_, h⟩ := h; subst h; simp
              · split at h
                · split at h
                  · simp at h
                  · rename_i r hr
                    simp only [Option.some.injEq, Prod.mk.injEq] at h
                    obtain ⟨_, h⟩ := h
                    have := tls_process_record_data_frame env conn _ _ _ _ r hr
                    rw [h] at this
                    exact ⟨this.1, this.2.1, this.2.2.1⟩
                · simp only [Option.some.injEq, Prod.mk.injEq] at h
                  obtain ⟨_, h⟩ := h; subst h; simp
  · simp only [Option.some.injEq, Prod.mk.injEq] at h
    obtain ⟨_, h⟩ := h; subst h; simp

/-- What one record does to a session it does not destroy: the identity tuple and `state`
are kept, and `encrypted` is kept unless the record is a `change_cipher_spec`, which sets
it to 1. -/
theorem tls_process_record_fragment_frame (env : Env) (conn : SSLConnection) (type : Nat)
    (fragment : Mem) (length : Nat) (out : List Nat) (outl : Nat) (ret : Int)
    (conn1 : SSLConnection) (out1 : List Nat) (outl1 : Nat)
    (h : tls_process_record_fragment env conn type fragment length out outl
      = some (ret, some conn1, out1, outl1)) :
    conn1.identity = conn.identity ∧ conn1.state = conn.state
    ∧ (conn1.encrypted = conn.encrypted
      ∨ (type = change_cipher_spec ∧ conn1.encrypted = 1)) := by
  unfold tls_process_record_fragment at h
  split at h
  · split at h
    · simp at h
    · rename_i r hr
      have hc : r.2 = some conn1 := by
        split at h <;> simp only [Option.some.injEq, Prod.mk.injEq] at h <;> exact h.2.1
      have hr' : tls_process_record_handshake env conn fragment = some (r.1, some conn1) := by
        rw [hr, ← hc]
      have := tls_process_record_handshake_frame env conn fragment r.1 conn1 hr'
      exact ⟨this.1, this.2.2, Or.inl this.2.1⟩
  · split at h
    · rename_i ht
      simp only [Option.some.injEq, Prod.mk.injEq] at h
      obtain ⟨_, h, _, _⟩ := h
      subst h
      exact ⟨rfl, rfl, Or.inr ⟨ht, rfl⟩⟩
    · split at h
      · split at h
        · split at h
          · simp at h
          · rename_i r hr
            simp only [Option.some.injEq, Prod.mk.injEq] at h
            obtain ⟨_, h, _, _⟩ := h
            have := tls_process_record_data_frame env conn _ _ _ _ r hr
            rw [h] at this
            exact ⟨this.1, this.2.2.1, Or.inl this.2.1⟩
        · simp only [Option.some.injEq, Prod.mk.injEq] at h
          obtain ⟨_, h, _, _⟩ := h
          subst h
          exact ⟨rfl, rfl, Or.inl rfl⟩
      · simp only [Option.some.injEq, Prod.mk.injEq] at h
        obtain ⟨_, h, _, _⟩ := h
        subst h
        exact ⟨rfl, rfl, Or.inl rfl⟩

/-- What `tls_process_record` does to a session it does not destroy, for any fuel: the
identity tuple and `state` are kept, and `encrypted` is kept unless one of the records of
the buffer is a `change_cipher_spec` with a non-empty fragment, which sets it to 1. -/
theorem tls_process_record_aux_frame (env : Env) :
    ∀ (fuel : Nat) (conn : SSLConnection) (p : Mem) (len : Nat) (out : List Nat) (outl : Nat)
      (ret : Int) (conn1 : SSLConnection) (out1 : List Nat) (outl1 : Nat),
      tls_process_record_aux env fuel conn p len out outl
        = some (ret, some conn1, out1, outl1) →
      conn1.identity = conn.identity ∧ conn1.state = conn.state
      ∧ (conn1.encrypted = conn.encrypted
        ∨ (conn1.encrypted = 1 ∧ has_change_cipher_spec fuel p len = true)) := by
  intro fuel
  induction fuel with
  | zero =>
    intro conn p len out outl ret conn1 out1 outl1 h
    simp only [tls_process_record_aux, Option.some.injEq, Prod.mk.injEq] at h
    obtain ⟨_, h, _, _⟩ := h
    subst h
    exact ⟨rfl, rfl, Or.inl rfl⟩
  | succ fuel ih =>
    intro conn p len out outl ret conn1 out1 outl1 h
    rw [tls_process_record_aux] at h
    by_cases h0 : len = 0
    · simp only [h0, if_true, Option.some.injEq, Prod.mk.injEq] at h
      obtain ⟨_, h, _, _⟩ := h
      subst h
      exact ⟨rfl, rfl, Or.inl rfl⟩
    · simp only [h0, if_false, sizeof_TLSPlaintext] at h
      -- the session after the switch on the first record
      have key : ∀ (r' : Int) (c' : SSLConnection) (o' : List Nat) (ol' : Nat),
          (if UINT16_INT (p 3) (p 4) > 0 then
              tls_process_record_fragment env conn (p 0) (p.shift 5)
                (UINT16_INT (p 3) (p 4)) out outl
            else some (0, some conn, out, outl)) = some (r', some c', o', ol') →
          c'.identity = conn.identity ∧ c'.state = conn.state
          ∧ (c'.encrypted = conn.encrypted
            ∨ ((UINT16_INT (p 3) (p 4) > 0 ∧ p 0 = change_cipher_spec) ∧ c'.encrypted = 1)) := by
        intro r' c' o' ol' hk
        by_cases hl : UINT16_INT (p 3) (p 4) > 0
        · rw [if_pos hl] at hk
          have := tls_process_record_fragment_frame env conn _ _ _ _ _ r' c' o' ol' hk
          refine ⟨this.1, this.2.1, ?_⟩
          rcases this.2.2 with e | ⟨e1, e2⟩
          · exact Or.inl e
          · exact Or.inr ⟨⟨hl, e1⟩, e2⟩
        · rw [if_neg hl] at hk
          simp only [Option.some.injEq, Prod.mk.injEq] at hk
          obtain ⟨_, hk, _, _⟩ := hk
          subst hk
          exact ⟨rfl, rfl, Or.inl rfl⟩
      have hccs : ∀ b : Bool,
          has_change_cipher_spec (fuel + 1) p len
            = ((decide (UINT16_INT (p 3) (p 4) > 0 ∧ p 0 = change_cipher_spec))
              || (if len > 5 + UINT16_INT (p 3) (p 4) then
                    has_change_cipher_spec fuel (p.shift (5 + UINT16_INT (p 3) (p 4)))
                      (len - (5 + UINT16_INT (p 3) (p 4)))
                  else false)) := by
        intro _
        rw [has_change_cipher_spec]
        simp only [h0, if_false, sizeof_TLSPlaintext]
      rw [hccs true]
      split at h
      · simp at h
      · simp at h
      · rename_i ret' c' o' ol' hafter
        have hk := key ret' c' o' ol' hafter
        have fin : some (ret', some c', o', ol') = some (ret, some conn1, out1, outl1) →
            conn1.identity = conn.identity ∧ conn1.state = conn.state
            ∧ (conn1.encrypted = conn.encrypted
              ∨ (conn1.encrypted = 1
                ∧ ((decide (UINT16_INT (p 3) (p 4) > 0 ∧ p 0 = change_cipher_spec))
                  || (if len > 5 + UINT16_INT (p 3) (p 4) then
                        has_change_cipher_spec fuel (p.shift (5 + UINT16_INT (p 3) (p 4)))
                          (len - (5 + UINT16_INT (p 3) (p 4)))
                      else false)) = true)) := by
          intro e
          simp only [Option.some.injEq, Prod.mk.injEq] at e
          obtain ⟨_, e, _, _⟩ := e
          subst e
          refine ⟨hk.1, hk.2.1, ?_⟩
          rcases hk.2.2 with e | ⟨e1, e2⟩
          · exact Or.inl e
          · exact Or.inr ⟨e2, by simp [e1]⟩
        split at h
        · exact fin h
        · split at h
          · rename_i hgt
            have hi := ih c' _ _ o' ol' ret conn1 out1 outl1 h
            refine ⟨hi.1.trans hk.1, hi.2.1.trans hk.2.1, ?_⟩
            rcases hi.2.2 with e | ⟨e1, e2⟩
            · rcases hk.2.2 with k | ⟨k1, k2⟩
              · exact Or.inl (e.trans k)
              · exact Or.inr ⟨e.trans k2, by simp [k1]⟩
            · exact Or.inr ⟨e1, by simp [hgt, e2]⟩
          · have : ret' = 0 := by
              rename_i hret _
              exact not_not.mp hret
            subst this
            exact fin h

/-! ## The registry along a sequence of segments -/

/-- What `tls_process_segment` does to the list when a session is located at position `i`:
the session is unlinked, or it stays at its place with its identity tuple, and with
`encrypted` as it was unless the state is ACK or ESTABLISHED and the payload holds a
`change_cipher_spec` record, which sets it to 1.  The other sessions are not touched. -/
theorem tls_process_segment_located (env : Env) (connections : List SSLConnection)
    (packet : capture_packet_t) (th_flags i : Nat) (conn : SSLConnection)
    (r : Int × List SSLConnection × capture_packet_t)
    (hfind : tls_connection_find_at connections packet.ip_src packet.sport = some (i, conn))
    (h : tls_process_segment env connections packet th_flags = some r) :
    r.2.1 = connections.eraseIdx i
    ∨ ∃ conn1, r.2.1 = connections.set i conn1 ∧ conn1.identity = conn.identity
        ∧ (conn1.encrypted = conn.encrypted
          ∨ (conn1.encrypted = 1
            ∧ (conn.state = .TCP_STATE_ACK ∨ conn.state = .TCP_STATE_ESTABLISHED)
            ∧ has_change_cipher_spec packet.payload_len packet.payload packet.payload_len
              = true)) := by
  cases hs : conn.state with
  | TCP_STATE_SYN =>
    rw [tls_process_segment_syn_states env connections packet th_flags i conn hfind
      (Or.inl hs)] at h
    simp only [Option.some.injEq] at h
    subst h
    exact Or.inr ⟨_, rfl, rfl, Or.inl rfl⟩
  | TCP_STATE_SYN_ACK =>
    rw [tls_process_segment_syn_states env connections packet th_flags i conn hfind
      (Or.inr hs)] at h
    simp only [Option.some.injEq] at h
    subst h
    exact Or.inr ⟨_, rfl, rfl, Or.inl rfl⟩
  | TCP_STATE_FIN =>
    rw [tls_process_segment_fin_state env connections packet th_flags i conn hfind
      (Or.inl hs)] at h
    simp only [Option.some.injEq] at h
    subst h
    exact Or.inl rfl
  | TCP_STATE_CLOSED =>
    rw [tls_process_segment_fin_state env connections packet th_flags i conn hfind
      (Or.inr hs)] at h
    simp only [Option.some.injEq] at h
    subst h
    exact Or.inl rfl
  | TCP_STATE_ACK | TCP_STATE_ESTABLISHED =>
    simp only [tls_process_segment, hfind, hs] at h
    split at h
    · simp at h
    · rename_i rr hrr
      have hreg : r.2.1 = registry_after connections i rr.2.1 := by
        split at h <;> simp only [Option.some.injEq] at h <;> rw [← h]
      obtain ⟨ret, c, o, ol⟩ := rr
      cases c with
      | none => exact Or.inl (by rw [hreg]; rfl)
      | some c1 =>
        have hf := tls_process_record_aux_frame env _ _ _ _ _ _ ret c1 o ol hrr
        refine Or.inr ⟨c1, by rw [hreg]; rfl, hf.1, ?_⟩
        rcases hf.2.2 with e | ⟨e1, e2⟩
        · exact Or.inl e
        · exact Or.inr ⟨e1, by simp, e2⟩

/-- The client endpoint of a session. -/
theorem identity_client (c d : SSLConnection) (h : c.identity = d.identity) :
    (c.client_addr, c.client_port) = (d.client_addr, d.client_port) := by
  simp only [SSLConnection.identity, Prod.mk.injEq] at h
  simp [h.1, h.2.1]

/-- One `tls_process_segment` call keeps the client endpoints of the registered sessions
pairwise different. -/
theorem tls_process_segment_client_nodup (env : Env) (connections : List SSLConnection)
    (packet : capture_packet_t) (th_flags : Nat)
    (r : Int × List SSLConnection × capture_packet_t)
    (hinv : (connections.map (fun c => (c.client_addr, c.client_port))).Nodup)
    (h : tls_process_segment env connections packet th_flags = some r) :
    (r.2.1.map (fun c => (c.client_addr, c.client_port))).Nodup := by
  cases hfind : tls_connection_find_at connections packet.ip_src packet.sport with
  | none =>
    rw [tls_process_segment_unmatched env connections packet th_flags hfind] at h
    simp only [Option.some.injEq] at h
    subst h
    simp only
    split
    · -- a new session: its client endpoint is the source, which no session has
      have hnone := (tls_connection_find_at_none connections _ _).mp hfind
      unfold tls_connection_create
      cases h1 : env.SSL_CTX_new_ok <;> cases h2 : env.SSL_new_ok <;>
        cases h3 : env.keyfile <;> simp only [h1, h2, h3] <;> try exact hinv
      simp only [not_true_eq_false, if_false, List.map_cons, List.nodup_cons]
      refine ⟨?_, hinv⟩
      simp only [List.mem_map, not_exists, not_and]
      intro x hx he
      have hd := hnone x hx
      simp only [Prod.mk.injEq] at he
      simp [tls_connection_dir, he.1, he.2] at hd
    · exact hinv
  | some ic =>
    obtain ⟨i, conn⟩ := ic
    have hget := (tls_connection_find_at_some connections _ _ i conn hfind).1
    rcases tls_process_segment_located env connections packet th_flags i conn r hfind h with
      e | ⟨c1, e, hid, _⟩
    · rw [e]
      exact hinv.sublist ((List.eraseIdx_sublist connections i).map _)
    · rw [e, List.map_set, identity_client c1 conn hid]
      have : (connections.map (fun c => (c.client_addr, c.client_port))).set i
          (conn.client_addr, conn.client_port)
          = connections.map (fun c => (c.client_addr, c.client_port)) := by
        apply List.ext_getElem?
        intro n
        rw [List.getElem?_set]
        split
        · rename_i hn
          subst hn
          split
          · simp [hget]
          · rename_i hlen
            simp only [List.length_map, not_lt] at hlen
            rw [List.getElem?_eq_none (by simpa using hlen)]
        · rfl
      rw [this]
      exact hinv

theorem tls_process_segments_client_nodup (env : Env) :
    ∀ (segs : List (capture_packet_t × Nat)) (connections registry : List SSLConnection),
      (connections.map (fun c => (c.client_addr, c.client_port))).Nodup →
      tls_process_segments env connections segs = some registry →
      (registry.map (fun c => (c.client_addr, c.client_port))).Nodup := by
  intro segs
  induction segs with
  | nil =>
    intro connections registry hinv h
    simp only [tls_process_segments, Option.some.injEq] at h
    subst h
    exact hinv
  | cons seg rest ih =>
    intro connections registry hinv h
    rw [tls_process_segments] at h
    split at h
    · simp at h
    · rename_i r hr
      exact ih r.2.1 registry
        (tls_process_segment_client_nodup env connections seg.1 seg.2 r hinv hr) h

/-- C16: after any finite sequence of `tls_process_segment` calls that starts from the
empty registry (each call defined), no two sessions of the registry have the same
identity tuple; their client endpoints are even pairwise different.  It holds whether
`tls_connection_create` succeeds or not. -/
theorem tls_process_segments_unique_identity (env : Env)
    (segs : List (capture_packet_t × Nat)) (registry : List SSLConnection)
    (h : tls_process_segments env [] segs = some registry) :
    (registry.map SSLConnection.identity).Nodup
    ∧ (registry.map (fun c => (c.client_addr, c.client_port))).Nodup := by
  have hc := tls_process_segments_client_nodup env segs [] registry (by simp) h
  refine ⟨?_, hc⟩
  have : registry.map (fun c => (c.client_addr, c.client_port))
      = (registry.map SSLConnection.identity).map (fun t => (t.1, t.2.1)) := by
    rw [List.map_map]; rfl
  rw [this] at hc
  exact hc.of_map _

set_option maxRecDepth 100000 in
/-- The witness of C15: the session at position 1 of a registry of two, on a `client_hello`
with version 3.1 and on one with version 3.0. -/
theorem tls_client_hello_version_check_witness :
    tls_process_record_handshake_at toy_env [toy_other_conn, toy_new_conn] 1
        (Mem.ofList toy_client_hello)
      = some (0, [toy_other_conn,
          { toy_new_conn with client_random := (List.range 32).map (fun i => 100 + i) }])
    ∧ tls_process_record_handshake_at toy_env [toy_other_conn, toy_new_conn] 1
        (Mem.ofList toy_client_hello_v30) = some (1, [toy_other_conn])
    ∧ tls_connection_find ([toy_other_conn, toy_new_conn].eraseIdx 1) 10 5060
      ≠ some toy_new_conn :=
  have h1 := tls_client_hello_version_check toy_env [toy_other_conn, toy_new_conn] 1
    toy_new_conn (Mem.ofList toy_client_hello) (by decide) (by decide) (by decide)
  have h2 := tls_client_hello_version_check toy_env [toy_other_conn, toy_new_conn] 1
    toy_new_conn (Mem.ofList toy_client_hello_v30) (by decide) (by decide) (by decide)
  ⟨h1.1.trans (by decide), h2.1.trans (by decide), h2.2.2 (by decide) 10 5060⟩

set_option maxRecDepth 100000 in
/-- The witness of C14: the session at position 1 of a registry of two, on a `server_hello`
with the suite (0x00,0x99) and on one with (0x00,0x2F). -/
theorem tls_server_hello_cipher_check_witness :
    tls_process_record_handshake_at toy_env [toy_other_conn, toy_new_conn] 1
        (Mem.ofList (toy_server_hello 0x99)) = some (1, [toy_other_conn])
    ∧ tls_connection_find ([toy_other_conn, toy_new_conn].eraseIdx 1) 10 5060
      ≠ some toy_new_conn
    ∧ tls_process_record_handshake_at toy_env [toy_other_conn, toy_new_conn] 1
        (Mem.ofList (toy_server_hello 0x2F))
      = some (0, [toy_other_conn,
          { toy_new_conn with
            server_random := (List.range 32).map (fun i => 200 + i)
            cipher_suite := { cs1 := 0x00, cs2 := 0x2F }
            ciph := GCRY_CIPHER_AES }]) :=
  have h1 := tls_server_hello_cipher_check toy_env [toy_other_conn, toy_new_conn] 1
    toy_new_conn (Mem.ofList (toy_server_hello 0x99)) (by decide) (by decide) (by decide)
  have h2 := tls_server_hello_cipher_check toy_env [toy_other_conn, toy_new_conn] 1
    toy_new_conn (Mem.ofList (toy_server_hello 0x2F)) (by decide) (by decide) (by decide)
  ⟨h1.1.trans (by decide), h1.2.2 (by decide) 10 5060, h2.1.trans (by decide)⟩

set_option maxRecDepth 100000 in
/-- The witness of C16: the three segments `toy_segments` leave two sessions. -/
theorem tls_process_segments_unique_identity_witness :
    (tls_process_segments toy_env [] toy_segments).map (fun l => l.map SSLConnection.identity)
      = some [(30, 1000, 20, 5061), (10, 5060, 20, 5061)]
    ∧ (((tls_process_segments toy_env [] toy_segments).getD []).map
        SSLConnection.identity).Nodup :=
  ⟨by decide,
    (tls_process_segments_unique_identity toy_env toy_segments
      ((tls_process_segments toy_env [] toy_segments).getD []) (by decide)).1⟩

/-! ## Derived state under further handshake messages -/

/-- A `server_hello` that keeps the session leaves a supported suite and the cipher
`tls_connection_load_cipher` resolves from it. -/
theorem handshake_server_hello_ciph (env : Env) (conn conn2 : SSLConnection) (f : Mem)
    (t : f 0 = server_hello) (l : 0 < UINT24_INT (f 1) (f 2) (f 3))
    (h : tls_process_record_handshake env conn f = some (0, some conn2)) :
    (conn2.cipher_suite = TLS_RSA_WITH_AES_256_CBC_SHA ∧ conn2.ciph = GCRY_CIPHER_AES256)
    ∨ (conn2.cipher_suite = TLS_RSA_WITH_AES_128_CBC_SHA ∧ conn2.ciph = GCRY_CIPHER_AES) := by
  unfold tls_process_record_handshake at h
  simp only [l, gt_iff_lt, if_true, t, client_hello, hello_request, server_hello,
    sizeof_Handshake, sizeof_Random, sizeof_ServerHello, Mem.bytes_shift] at h
  simp only [show ¬ (2 = 0) by decide, show ¬ (2 = 1) by decide, if_false, if_true] at h
  split at h
  · simp at h
  · rename_i hr
    simp only [Option.some.injEq, Prod.mk.injEq, true_and] at h
    subst h
    have hr := not_not.mp hr
    revert hr
    generalize hc : ({ conn with
        server_random := f.bytes (4 + 2) 32
        cipher_suite := { cs1 := (f.shift 4) (35 + (f.shift 4) 34),
                          cs2 := (f.shift 4) (35 + (f.shift 4) 34 + 1) } } : SSLConnection) = c
    have hs : ∀ s : CipherSuite, s = { cs1 := s.cs1, cs2 := s.cs2 } := fun s => rfl
    intro hr
    unfold tls_connection_load_cipher at hr ⊢
    by_cases h1 : c.cipher_suite.cs1 ≠ 0x00
    · rw [if_pos h1] at hr; simp at hr
    · rw [if_neg h1] at hr ⊢
      have h1 := not_not.mp h1
      by_cases h2 : c.cipher_suite.cs2 = TLS_RSA_WITH_AES_256_CBC_SHA.cs2
      · rw [if_pos h2]
        left
        refine ⟨?_, rfl⟩
        show c.cipher_suite = _
        rw [hs c.cipher_suite, h1, h2]; rfl
      · rw [if_neg h2] at hr ⊢
        by_cases h3 : c.cipher_suite.cs2 = TLS_RSA_WITH_AES_128_CBC_SHA.cs2
        · rw [if_pos h3]
          right
          refine ⟨?_, rfl⟩
          show c.cipher_suite = _
          rw [hs c.cipher_suite, h1, h3]; rfl
        · rw [if_neg h3] at hr; simp at hr

/-- With `*outl = 0` on entry `tls_process_record_data` copies nothing: it returns 0 and
only the handle of the current direction has changed. -/
theorem tls_process_record_data_zero_outl (env : Env) (conn : SSLConnection) (fragment : Mem)
    (len : Nat) (out : List Nat) (hlen : len ≠ 0) :
    tls_process_record_data env conn fragment len out 0
      = match (if conn.direction = 0 then conn.client_cipher_ctx
          else conn.server_cipher_ctx) with
        | none => none
        | some evp =>
          some (0, (if conn.direction = 0 then
              { conn with
                client_cipher_ctx := some (env.gcry_cipher_decrypt evp (fragment.bytes 0 len)).1 }
            else
              { conn with
                server_cipher_ctx :=
                  some (env.gcry_cipher_decrypt evp (fragment.bytes 0 len)).1 }), out, 0) := by
  have hno : ∀ d : Nat, ¬ (int32_of_nat d > 0 ∧ d ≤ 0) := by
    intro d hd
    have : d = 0 := Nat.le_zero.mp hd.2
    rw [this] at hd
    exact absurd hd.1 (by decide)
  unfold tls_process_record_data
  cases (if conn.direction = 0 then conn.client_cipher_ctx else conn.server_cipher_ctx) with
  | none => rfl
  | some evp =>
    simp only [hlen, if_false]
    rw [if_neg (hno _)]
    rfl

/-- The local `decodedlen` of the `default` case is not initialised (line 467).  Whatever
value `*outl` holds on entry, a call with length 48 and a 48-byte `*out` leaves the same
session as with `*outl = 0`, when the padding byte is a byte. -/
theorem tls_process_record_data_any_outl (env : Env) (conn : SSLConnection) (fragment : Mem)
    (out : List Nat) (outl : Nat) (hout : out.length = 48)
    (hpad : ∀ evp, (env.gcry_cipher_decrypt evp (fragment.bytes 0 48)).2.getD 47 0 < 256) :
    (tls_process_record_data env conn fragment 48 out outl).map (fun r => r.2.1)
      = (tls_process_record_data env conn fragment 48 out 0).map (fun r => r.2.1) := by
  rw [tls_process_record_data_zero_outl env conn fragment 48 out (by decide)]
  unfold tls_process_record_data
  cases (if conn.direction = 0 then conn.client_cipher_ctx else conn.server_cipher_ctx) with
  | none => rfl
  | some evp =>
    simp only [show ¬ (48 = 0) by decide, if_false, Nat.add_one_sub_one]
    have hp := hpad evp
    have hl : (env.gcry_cipher_decrypt evp (fragment.bytes 0 48)).2.length = 48 := by
      rw [env.gcry_cipher_decrypt_len, Mem.bytes_length]
    generalize (env.gcry_cipher_decrypt evp (fragment.bytes 0 48)).2 = decoded at hp hl ⊢
    generalize decoded.getD 47 0 = pad at hp ⊢
    split
    · rename_i hc
      have hd : size_t_of_int (((48 : Nat) : Int) - ((pad : Int) + 1) - 20) ≤ 27 := by
        have h1 := hc.1
        unfold size_t_of_int at h1 ⊢
        unfold int32_of_nat at h1
        split at h1 <;> omega
      rw [memcpy_eq_some _ _ _ _ (by omega) (by omega)]
      rfl
    · rfl

/-- The `default` case of `tls_process_record_handshake` (lines 464-472). -/
theorem handshake_default (env : Env) (conn : SSLConnection) (f : Mem)
    (l : 0 < UINT24_INT (f 1) (f 2) (f 3))
    (t0 : f 0 ≠ hello_request) (t1 : f 0 ≠ client_hello) (t2 : f 0 ≠ server_hello)
    (t11 : f 0 ≠ certificate) (t13 : f 0 ≠ certificate_request)
    (t14 : f 0 ≠ server_hello_done) (t15 : f 0 ≠ certificate_verify)
    (t16 : f 0 ≠ client_key_exchange) (t20 : f 0 ≠ finished) :
    tls_process_record_handshake env conn f
      = if conn.encrypted ≠ 0 then
          match tls_process_record_data env conn f 48 (List.replicate 48 0) 0 with
          | none => none
          | some r => some ((0 : Int), some r.2.1)
        else some ((0 : Int), some conn) := by
  unfold tls_process_record_handshake
  simp only [l, gt_iff_lt, if_true, t0, t1, t2, t11, t13, t14, t15, t16, t20, if_false,
    or_self]

set_option maxRecDepth 100000 in
/-- C17 (counterexample): the session `toy_keyed_conn` has its suite (0x00,0x2F), its
cipher, its secrets and both handles derived (it is what `client_key_exchange` leaves).  A
second `server_hello` with the supported suite (0x00,0x35) changes `cipher_suite` (and
`ciph`, to AES256); a second `client_key_exchange` with another pre-master secret changes
`master_secret`, `key_material` and both cipher handles; and on the same session with
`encrypted` set, a fragment of a type the code does not name changes the handle of the
current direction (the client handle with `direction = 0`, the server handle with
`direction = 1`). -/
theorem tls_handshake_rederives_counterexample :
    tls_process_record_handshake toy_env (toy_hello_conn 0x2F GCRY_CIPHER_AES)
        (Mem.ofList toy_client_key_exchange) = some (0, some toy_keyed_conn)
    ∧ toy_keyed_conn.cipher_suite = { cs1 := 0x00, cs2 := 0x2F }
    ∧ toy_keyed_conn.ciph = GCRY_CIPHER_AES
    ∧ (tls_process_record_handshake toy_env toy_keyed_conn
        (Mem.ofList (toy_server_hello 0x35))).map
          (fun r => (r.1, r.2.map (fun c => (c.cipher_suite, c.ciph))))
      = some (0, some ({ cs1 := 0x00, cs2 := 0x35 }, GCRY_CIPHER_AES256))
    ∧ (tls_process_record_handshake toy_env toy_keyed_conn
        (Mem.ofList toy_client_key_exchange2)).map
          (fun r => (r.1, r.2.map (fun c =>
            decide (c.master_secret = toy_keyed_conn.master_secret
              ∨ c.key_material = toy_keyed_conn.key_material
              ∨ c.client_cipher_ctx = toy_keyed_conn.client_cipher_ctx
              ∨ c.server_cipher_ctx = toy_keyed_conn.server_cipher_ctx))))
      = some (0, some false)
    ∧ toy_keyed_encrypted_conn.direction = 0
    ∧ (tls_process_record_handshake toy_env toy_keyed_encrypted_conn
        (Mem.ofList toy_encrypted_handshake)).map
          (fun r => (r.1, r.2.map (fun c =>
            decide (c.client_cipher_ctx = toy_keyed_encrypted_conn.client_cipher_ctx))))
      = some (0, some false)
    ∧ toy_keyed_encrypted_server_conn.direction = 1
    ∧ (tls_process_record_handshake toy_env toy_keyed_encrypted_server_conn
        (Mem.ofList toy_encrypted_handshake)).map
          (fun r => (r.1, r.2.map (fun c =>
            decide (c.server_cipher_ctx = toy_keyed_encrypted_server_conn.server_cipher_ctx))))
      = some (0, some false) := by
  decide

/-- C17 (amended): on a session that `tls_process_record_handshake` does not destroy, a
further handshake fragment leaves `cipher_suite`, `master_secret`, `key_material` and both
cipher handles (and `ciph`) as they were, with three exceptions, which cover every
fragment.  When the body length is zero or the type is `hello_request`, `client_hello`,
`certificate`, `certificate_request`, `server_hello_done`, `certificate_verify` or
`finished`, nothing of them changes.  A further `server_hello` stores its suite as
`cipher_suite` and resolves `ciph` from it again (AES256 for (0x00,0x35), AES for
(0x00,0x2F)); `master_secret`, `key_material` and the handles stay.  A further
`client_key_exchange` leaves `cipher_suite` as it was and derives `master_secret`,
`key_material` and both handles again from the pre-master secret it carries.  A fragment of
any other type leaves `cipher_suite`, `master_secret`, `key_material` and `ciph` as they
were; with `encrypted = 0` the whole session is unchanged, and with `encrypted` set the
fragment goes through `tls_process_record_data` with length 48, so that the handle of the
current direction becomes what `gcry_cipher_decrypt` leaves and every other field, the
other handle included, is unchanged. -/
theorem tls_handshake_keeps_derived_state (env : Env) (conn conn1 : SSLConnection)
    (fragment : Mem) (ret : Int)
    (h : tls_process_record_handshake env conn fragment = some (ret, some conn1)) :
    ((UINT24_INT (fragment 1) (fragment 2) (fragment 3) = 0 ∨ fragment 0 = hello_request
        ∨ fragment 0 = client_hello ∨ fragment 0 = certificate
        ∨ fragment 0 = certificate_request ∨ fragment 0 = server_hello_done
        ∨ fragment 0 = certificate_verify ∨ fragment 0 = finished) →
      conn1.cipher_suite = conn.cipher_suite ∧ conn1.master_secret = conn.master_secret
      ∧ conn1.key_material = conn.key_material
      ∧ conn1.client_cipher_ctx = conn.client_cipher_ctx
      ∧ conn1.server_cipher_ctx = conn.server_cipher_ctx
      ∧ conn1.ciph = conn.ciph)
    ∧ (0 < UINT24_INT (fragment 1) (fragment 2) (fragment 3) → fragment 0 = server_hello →
      conn1.cipher_suite
        = { cs1 := fragment (39 + fragment 38), cs2 := fragment (40 + fragment 38) }
      ∧ ((conn1.cipher_suite = TLS_RSA_WITH_AES_256_CBC_SHA ∧ conn1.ciph = GCRY_CIPHER_AES256)
        ∨ (conn1.cipher_suite = TLS_RSA_WITH_AES_128_CBC_SHA ∧ conn1.ciph = GCRY_CIPHER_AES))
      ∧ conn1.master_secret = conn.master_secret ∧ conn1.key_material = conn.key_material
      ∧ conn1.client_cipher_ctx = conn.client_cipher_ctx
      ∧ conn1.server_cipher_ctx = conn.server_cipher_ctx)
    ∧ (0 < UINT24_INT (fragment 1) (fragment 2) (fragment 3) →
      fragment 0 = client_key_exchange →
      conn1.cipher_suite = conn.cipher_suite
      ∧ ∀ P, env.gnutls_privkey_decrypt_data conn.server_private_key
            (fragment.bytes 6 (UINT16_INT (fragment 4) (fragment 5))) = some P →
          P.length = 48 → conn.wf env →
          (conn.ciph = GCRY_CIPHER_AES ∨ conn.ciph = GCRY_CIPHER_AES256) →
          conn1 = after_client_key_exchange env conn P)
    ∧ (0 < UINT24_INT (fragment 1) (fragment 2) (fragment 3) →
      (fragment 0 ≠ hello_request ∧ fragment 0 ≠ client_hello ∧ fragment 0 ≠ server_hello
        ∧ fragment 0 ≠ certificate ∧ fragment 0 ≠ certificate_request
        ∧ fragment 0 ≠ server_hello_done ∧ fragment 0 ≠ certificate_verify
        ∧ fragment 0 ≠ client_key_exchange ∧ fragment 0 ≠ finished) →
      conn1.cipher_suite = conn.cipher_suite ∧ conn1.master_secret = conn.master_secret
      ∧ conn1.key_material = conn.key_material ∧ conn1.ciph = conn.ciph
      ∧ (conn.encrypted = 0 → conn1 = conn)
      ∧ (conn.encrypted ≠ 0 → conn.direction = 0 →
          ∃ evp, conn.client_cipher_ctx = some evp
            ∧ conn1 = { conn with
                client_cipher_ctx :=
                  some (env.gcry_cipher_decrypt evp (fragment.bytes 0 48)).1 })
      ∧ (conn.encrypted ≠ 0 → conn.direction ≠ 0 →
          ∃ evp, conn.server_cipher_ctx = some evp
            ∧ conn1 = { conn with
                server_cipher_ctx :=
                  some (env.gcry_cipher_decrypt evp (fragment.bytes 0 48)).1 })) := by
  refine ⟨?_, ?_, ?_, ?_⟩
  · intro hk
    by_cases hl : UINT24_INT (fragment 1) (fragment 2) (fragment 3) = 0
    · simp only [tls_process_record_handshake, hl, gt_iff_lt, Nat.lt_irrefl, if_false,
        Option.some.injEq, Prod.mk.injEq] at h
      obtain ⟨_, h⟩ := h; subst h
      exact ⟨rfl, rfl, rfl, rfl, rfl, rfl⟩
    · have hl' : 0 < UINT24_INT (fragment 1) (fragment 2) (fragment 3) := Nat.pos_of_ne_zero hl
      rcases hk with hk | hk | hk | hk | hk | hk | hk | hk
      · exact absurd hk hl
      all_goals
        simp only [tls_process_record_handshake, hl', gt_iff_lt, if_true, hk, hello_request,
          client_hello, server_hello, certificate, certificate_request, server_hello_done,
          certificate_verify, client_key_exchange, finished] at h
        try simp only [show ¬ (1 = 0) by decide, show ¬ (11 = 0) by decide,
          show ¬ (11 = 1) by decide, show ¬ (11 = 2) by decide, show ¬ (13 = 0) by decide,
          show ¬ (13 = 1) by decide, show ¬ (13 = 2) by decide, show ¬ (14 = 0) by decide,
          show ¬ (14 = 1) by decide, show ¬ (14 = 2) by decide, show ¬ (15 = 0) by decide,
          show ¬ (15 = 1) by decide, show ¬ (15 = 2) by decide, show ¬ (20 = 0) by decide,
          show ¬ (20 = 1) by decide, show ¬ (20 = 2) by decide, show ¬ (20 = 11) by decide,
          show ¬ (20 = 13) by decide, show ¬ (20 = 14) by decide, show ¬ (20 = 15) by decide,
          show ¬ (20 = 16) by decide, show ¬ (13 = 11) by decide, show ¬ (14 = 11) by decide,
          show ¬ (14 = 13) by decide, show ¬ (15 = 11) by decide, show ¬ (15 = 13) by decide,
          show ¬ (15 = 14) by decide, if_false, if_true, true_or, or_true, false_or] at h
        first
          | (simp only [Option.some.injEq, Prod.mk.injEq] at h
             obtain ⟨_, h⟩ := h; subst h
             exact ⟨rfl, rfl, rfl, rfl, rfl, rfl⟩)
          | (split at h
             · simp at h
             · simp only [Option.some.injEq, Prod.mk.injEq] at h
               obtain ⟨_, h⟩ := h; subst h
               exact ⟨rfl, rfl, rfl, rfl, rfl, rfl⟩)
  · intro hl ht
    have hret : ret = 0 := by
      unfold tls_process_record_handshake at h
      simp only [hl, gt_iff_lt, if_true, ht, hello_request, client_hello, server_hello,
        show ¬ (2 = 0) by decide, show ¬ (2 = 1) by decide, if_false] at h
      split at h
      · simp at h
      · simp only [Option.some.injEq, Prod.mk.injEq] at h
        exact h.1.symm
    rw [hret] at h
    have hc := handshake_server_hello_ciph env conn conn1 fragment ht hl h
    have := (handshake_server_hello env conn conn1 fragment ht hl h).2
    refine ⟨?_, hc, ?_, ?_, ?_, ?_⟩
    · rw [this]
      have e1 : 4 + (35 + fragment 38) = 39 + fragment 38 := by omega
      have e2 : 4 + (35 + fragment 38 + 1) = 40 + fragment 38 := by omega
      simp [e1, e2]
    all_goals rw [this]
  · intro hl ht
    rw [handshake_client_key_exchange env conn fragment ht hl] at h
    refine ⟨(tls_process_client_key_exchange_frame env conn _ ret conn1 h).2.2.2, ?_⟩
    intro P hdec hP hwf hciph
    have hdec' : env.gnutls_privkey_decrypt_data conn.server_private_key
        ((fragment.shift 4).bytes 2 (UINT16_INT ((fragment.shift 4) 0) ((fragment.shift 4) 1)))
        = some P := by
      rw [Mem.bytes_shift]; exact hdec
    rw [tls_process_client_key_exchange_eq env conn (fragment.shift 4) P hwf hdec' hP hciph] at h
    simp only [Option.some.injEq, Prod.mk.injEq] at h
    exact h.2.symm
  · intro hl ht
    obtain ⟨t0, t1, t2, t11, t13, t14, t15, t16, t20⟩ := ht
    rw [handshake_default env conn fragment hl t0 t1 t2 t11 t13 t14 t15 t16 t20,
      tls_process_record_data_zero_outl env conn fragment 48 _ (by decide)] at h
    by_cases he : conn.encrypted = 0
    · rw [if_neg (not_not.mpr he)] at h
      simp only [Option.some.injEq, Prod.mk.injEq] at h
      obtain ⟨_, h⟩ := h; subst h
      exact ⟨rfl, rfl, rfl, rfl, fun _ => rfl, fun h1 => absurd he h1, fun h1 => absurd he h1⟩
    · rw [if_pos he] at h
      by_cases hd : conn.direction = 0
      · simp only [if_pos hd] at h
        cases hc : conn.client_cipher_ctx with
        | none => rw [hc] at h; simp at h
        | some evp =>
          rw [hc] at h
          simp only [Option.some.injEq, Prod.mk.injEq] at h
          obtain ⟨_, h⟩ := h; subst h
          exact ⟨rfl, rfl, rfl, rfl, fun h1 => absurd h1 he, fun _ _ => ⟨evp, rfl, rfl⟩,
            fun _ h2 => absurd hd h2⟩
      · simp only [if_neg hd] at h
        cases hc : conn.server_cipher_ctx with
        | none => rw [hc] at h; simp at h
        | some evp =>
          rw [hc] at h
          simp only [Option.some.injEq, Prod.mk.injEq] at h
          obtain ⟨_, h⟩ := h; subst h
          exact ⟨rfl, rfl, rfl, rfl, fun h1 => absurd h1 he, fun _ h2 => absurd h2 hd,
            fun _ _ => ⟨evp, rfl, rfl⟩⟩

set_option maxRecDepth 100000 in
/-- The witness of C17 (amended): the fragment `toy_encrypted_handshake`, of a type the code
does not name, on the session `toy_keyed_encrypted_conn`, whose `encrypted` is set: the
session is kept, and its suite, secrets and cipher are as they were. -/
theorem tls_handshake_keeps_derived_state_witness :
    tls_process_record_handshake toy_env toy_keyed_encrypted_conn
        (Mem.ofList toy_encrypted_handshake) = some (0, some toy_after_encrypted_handshake)
    ∧ toy_after_encrypted_handshake.cipher_suite = toy_keyed_encrypted_conn.cipher_suite
    ∧ toy_after_encrypted_handshake.master_secret = toy_keyed_encrypted_conn.master_secret
    ∧ toy_after_encrypted_handshake.key_material = toy_keyed_encrypted_conn.key_material
    ∧ toy_after_encrypted_handshake.ciph = toy_keyed_encrypted_conn.ciph :=
  have h : tls_process_record_handshake toy_env toy_keyed_encrypted_conn
      (Mem.ofList toy_encrypted_handshake) = some (0, some toy_after_encrypted_handshake) := by
    decide
  have k := (tls_handshake_keeps_derived_state toy_env toy_keyed_encrypted_conn
    toy_after_encrypted_handshake (Mem.ofList toy_encrypted_handshake) 0 h).2.2.2
      (by decide) (by decide)
  ⟨h, k.1, k.2.1, k.2.2.1, k.2.2.2.1⟩

/-! ## The `encrypted` flag and the termination of `tls_process_record` -/

/-- C18: `encrypted` never goes back.  `tls_process_record_data` and
`tls_process_record_handshake` leave `encrypted` as it was; after `tls_process_record`, and
after `tls_process_segment` for the session it located, a session that is not destroyed
still has `encrypted` set if it was set, and if `encrypted` went from 0 to a non-zero
value then the buffer holds a `change_cipher_spec` record with a non-empty fragment;
`tls_process_segment` touches no other session of the list, and a session it creates has
`encrypted = 0`. -/
theorem tls_encrypted_is_monotonic (env : Env) (conn : SSLConnection) :
    (∀ fragment len out outl r,
      tls_process_record_data env conn fragment len out outl = some r →
      r.2.1.encrypted = conn.encrypted)
    ∧ (∀ fragment ret conn1,
      tls_process_record_handshake env conn fragment = some (ret, some conn1) →
      conn1.encrypted = conn.encrypted)
    ∧ (∀ p len out outl ret conn1 out1 outl1,
      tls_process_record env conn p len out outl = some (ret, some conn1, out1, outl1) →
      (conn.encrypted ≠ 0 → conn1.encrypted ≠ 0)
      ∧ (conn.encrypted = 0 → conn1.encrypted ≠ 0 →
          has_change_cipher_spec len p len = true))
    ∧ (∀ connections packet th_flags i r,
      tls_connection_find_at connections packet.ip_src packet.sport = some (i, conn) →
      tls_process_segment env connections packet th_flags = some r →
      r.2.1 = connections.eraseIdx i
      ∨ ∃ conn1, r.2.1 = connections.set i conn1
          ∧ (conn.encrypted ≠ 0 → conn1.encrypted ≠ 0)
          ∧ (conn.encrypted = 0 → conn1.encrypted ≠ 0 →
              has_change_cipher_spec packet.payload_len packet.payload packet.payload_len
                = true))
    ∧ (∀ connections packet th_flags r,
      tls_connection_find_at connections packet.ip_src packet.sport = none →
      tls_process_segment env connections packet th_flags = some r →
      r.2.1 = connections ∨ ∃ c, r.2.1 = c :: connections ∧ c.encrypted = 0) := by
  have mono : ∀ c1 : SSLConnection, ∀ b : Bool,
      (c1.encrypted = conn.encrypted ∨ (c1.encrypted = 1 ∧ b = true)) →
      (conn.encrypted ≠ 0 → c1.encrypted ≠ 0)
      ∧ (conn.encrypted = 0 → c1.encrypted ≠ 0 → b = true) := by
    intro c1 b hc
    rcases hc with e | ⟨e1, e2⟩
    · exact ⟨fun h => by rw [e]; exact h, fun h0 h1 => absurd (e.trans h0) h1⟩
    · exact ⟨fun _ => by rw [e1]; decide, fun _ _ => e2⟩
  refine ⟨?_, ?_, ?_, ?_, ?_⟩
  · intro fragment len out outl r h
    exact (tls_process_record_data_frame env conn fragment len out outl r h).2.1
  · intro fragment ret conn1 h
    exact (tls_process_record_handshake_frame env conn fragment ret conn1 h).2.1
  · intro p len out outl ret conn1 out1 outl1 h
    exact mono conn1 _ (tls_process_record_aux_frame env len conn p len out outl ret conn1
      out1 outl1 h).2.2
  · intro connections packet th_flags i r hfind h
    rcases tls_process_segment_located env connections packet th_flags i conn r hfind h with
      e | ⟨c1, e, _, hc⟩
    · exact Or.inl e
    · refine Or.inr ⟨c1, e, mono c1 _ ?_⟩
      rcases hc with e | ⟨e1, _, e2⟩
      · exact Or.inl e
      · exact Or.inr ⟨e1, e2⟩
  · intro connections packet th_flags r hfind h
    rw [tls_process_segment_unmatched env connections packet th_flags hfind] at h
    simp only [Option.some.injEq] at h
    subst h
    simp only
    split
    · unfold tls_connection_create
      cases h1 : env.SSL_CTX_new_ok <;> cases h2 : env.SSL_new_ok <;>
        cases h3 : env.keyfile <;> simp [h1, h2, h3, sng_malloc_SSLConnection]
    · exact Or.inl rfl

set_option maxRecDepth 100000 in
/-- The witness of C18: a `change_cipher_spec` record on the session `toy_conn`, whose
`encrypted` is 0, sets it to 1, and the buffer holds that record. -/
theorem tls_encrypted_is_monotonic_witness :
    toy_conn.encrypted = 0
    ∧ tls_process_record toy_env toy_conn (Mem.ofList [20, 3, 1, 0, 1, 1]) 6 [] 0
      = some (0, some { toy_conn with encrypted := 1 }, [], 0)
    ∧ has_change_cipher_spec 6 (Mem.ofList [20, 3, 1, 0, 1, 1]) 6 = true :=
  have h : tls_process_record toy_env toy_conn (Mem.ofList [20, 3, 1, 0, 1, 1]) 6 [] 0
      = some (0, some { toy_conn with encrypted := 1 }, [], 0) := by decide
  ⟨by decide, h,
    ((tls_encrypted_is_monotonic toy_env toy_conn).2.2.1 _ _ _ _ _ _ _ _ h).2 (by decide)
      (by decide)⟩

theorem tls_process_record_visits_fuel (env : Env) :
    ∀ (fuel1 fuel2 : Nat) (conn : SSLConnection) (p : Mem) (len : Nat) (out : List Nat)
      (outl : Nat), len ≤ fuel1 → len ≤ fuel2 →
      tls_process_record_visits env fuel1 conn p len out outl
        = tls_process_record_visits env fuel2 conn p len out outl := by
  intro fuel1
  induction fuel1 with
  | zero =>
    intro fuel2 conn p len out outl h1 _
    have h0 : len = 0 := by omega
    subst h0
    cases fuel2 <;> simp [tls_process_record_visits]
  | succ f1 ih =>
    intro fuel2 conn p len out outl h1 h2
    by_cases h0 : len = 0
    · subst h0
      cases fuel2 <;> simp [tls_process_record_visits]
    · obtain ⟨f2, rfl⟩ : ∃ f2, fuel2 = f2 + 1 := ⟨fuel2 - 1, by omega⟩
      rw [tls_process_record_visits, tls_process_record_visits]
      simp only [h0, if_false, sizeof_TLSPlaintext]
      split
      · rfl
      · rfl
      · split
        · rfl
        · split
          · rw [ih f2 _ _ _ _ _ (by omega) (by omega)]
          · rfl

theorem tls_process_record_visits_le (env : Env) :
    ∀ (fuel : Nat) (conn : SSLConnection) (p : Mem) (len : Nat) (out : List Nat) (outl : Nat),
      tls_process_record_visits env fuel conn p len out outl ≤ (len + 4) / 5 := by
  intro fuel
  induction fuel with
  | zero => intro conn p len out outl; simp [tls_process_record_visits]
  | succ fuel ih =>
    intro conn p len out outl
    rw [tls_process_record_visits]
    by_cases h0 : len = 0
    · simp [h0]
    · simp only [h0, if_false, sizeof_TLSPlaintext]
      have one : 1 ≤ (len + 4) / 5 := by omega
      split
      · exact one
      · exact one
      · split
        · exact one
        · split
          · rename_i _ _ c1 o1 ol1 _ _ hgt
            have := ih c1 (p.shift (5 + UINT16_INT (p 3) (p 4)))
              (len - (5 + UINT16_INT (p 3) (p 4))) o1 ol1
            omega
          · exact one

/-- One call of `tls_process_record` on a non-empty buffer, with the recursive call
written as `tls_process_record` itself. -/
theorem tls_process_record_step (env : Env) (conn : SSLConnection) (p : Mem) (len : Nat)
    (out : List Nat) (outl : Nat) (h0 : len ≠ 0) :
    tls_process_record env conn p len out outl
      = match (if UINT16_INT (p 3) (p 4) > 0 then
            tls_process_record_fragment env conn (p 0) (p.shift sizeof_TLSPlaintext)
              (UINT16_INT (p 3) (p 4)) out outl
          else some (0, some conn, out, outl)) with
        | none => none
        | some (ret, none, out1, outl1) => some (ret, none, out1, outl1)
        | some (ret, some conn1, out1, outl1) =>
          if ret ≠ 0 then some (ret, some conn1, out1, outl1)
          else if len > sizeof_TLSPlaintext + UINT16_INT (p 3) (p 4) then
            tls_process_record env conn1
              (p.shift (sizeof_TLSPlaintext + UINT16_INT (p 3) (p 4)))
              (len - (sizeof_TLSPlaintext + UINT16_INT (p 3) (p 4))) out1 outl1
          else some (0, some conn1, out1, outl1) := by
  obtain ⟨k, rfl⟩ : ∃ k, len = k + 1 := ⟨len - 1, by omega⟩
  unfold tls_process_record
  rw [tls_process_record_aux]
  simp only [Nat.succ_ne_zero, if_false]
  split
  · rfl
  · rfl
  · split
    · rfl
    · split
      · rename_i hgt
        simp only [sizeof_TLSPlaintext] at hgt ⊢
        exact tls_process_record_aux_fuel env _ _ _ _ _ _ _ (by omega) (le_refl _)
      · rfl

/-- C20: `tls_process_record` terminates.  On an empty buffer it returns 0 and changes
nothing; its result does not depend on the fuel of the embedding as soon as the fuel is
at least `len`; a call on a non-empty buffer handles one record and, only when `len`
exceeds `record_len = 5 + declared length`, calls itself on the `len - record_len` bytes
that follow, a remainder that is not empty and strictly shorter; the number of records
visited is at most `ceil(len / 5) = (len + 4) / 5`. -/
theorem tls_process_record_terminates (env : Env) (conn : SSLConnection) (p : Mem)
    (len : Nat) (out : List Nat) (outl : Nat) :
    tls_process_record env conn p 0 out outl = some (0, some conn, out, outl)
    ∧ (∀ fuel, len ≤ fuel →
        tls_process_record_aux env fuel conn p len out outl
          = tls_process_record env conn p len out outl)
    ∧ (len ≠ 0 →
        tls_process_record env conn p len out outl
          = match (if UINT16_INT (p 3) (p 4) > 0 then
                tls_process_record_fragment env conn (p 0) (p.shift sizeof_TLSPlaintext)
                  (UINT16_INT (p 3) (p 4)) out outl
              else some (0, some conn, out, outl)) with
            | none => none
            | some (ret, none, out1, outl1) => some (ret, none, out1, outl1)
            | some (ret, some conn1, out1, outl1) =>
              if ret ≠ 0 then some (ret, some conn1, out1, outl1)
              else if len > sizeof_TLSPlaintext + UINT16_INT (p 3) (p 4) then
                tls_process_record env conn1
                  (p.shift (sizeof_TLSPlaintext + UINT16_INT (p 3) (p 4)))
                  (len - (sizeof_TLSPlaintext + UINT16_INT (p 3) (p 4))) out1 outl1
              else some (0, some conn1, out1, outl1))
    ∧ (5 ≤ sizeof_TLSPlaintext + UINT16_INT (p 3) (p 4)
      ∧ (len > sizeof_TLSPlaintext + UINT16_INT (p 3) (p 4) →
          0 < len - (sizeof_TLSPlaintext + UINT16_INT (p 3) (p 4))
          ∧ len - (sizeof_TLSPlaintext + UINT16_INT (p 3) (p 4)) < len))
    ∧ (∀ fuel, len ≤ fuel →
        tls_process_record_visits env fuel conn p len out outl
          = tls_process_record_visits env len conn p len out outl)
    ∧ tls_process_record_visits env len conn p len out outl ≤ (len + 4) / 5 := by
  refine ⟨by simp [tls_process_record, tls_process_record_aux], ?_, ?_, ?_, ?_, ?_⟩
  · intro fuel hf
    exact tls_process_record_aux_fuel env fuel len conn p len out outl hf (le_refl _)
  · exact tls_process_record_step env conn p len out outl
  · simp only [sizeof_TLSPlaintext]
    omega
  · intro fuel hf
    exact tls_process_record_visits_fuel env fuel len conn p len out outl hf (le_refl _)
  · exact tls_process_record_visits_le env len conn p len out outl

set_option maxRecDepth 100000 in
/-- The witness of C20: a buffer of 12 bytes with a 1-byte `change_cipher_spec` record, an
empty record of an unknown type and one more byte: three calls are made on a non-empty
buffer, and `(12 + 4) / 5 = 3`. -/
theorem tls_process_record_terminates_witness :
    tls_process_record_visits toy_env 12 toy_conn
        (Mem.ofList [20, 3, 1, 0, 1, 1, 99, 3, 1, 0, 0, 7]) 12 [] 0 = 3
    ∧ tls_process_record_visits toy_env 12 toy_conn
        (Mem.ofList [20, 3, 1, 0, 1, 1, 99, 3, 1, 0, 0, 7]) 12 [] 0 ≤ (12 + 4) / 5 :=
  ⟨by decide,
    (tls_process_record_terminates toy_env toy_conn
      (Mem.ofList [20, 3, 1, 0, 1, 1, 99, 3, 1, 0, 0, 7]) 12 [] 0).2.2.2.2.2⟩

end Sngrep
